import Mathlib

/-!
# go-evepraisal: the authenticated ESI fetch helper (`esi/http.go`)

A shallow embedding of `HTTPHelp.FetchURL` and `HTTPHelp.refreshAuth`.

The two methods are glue around three collaborators that are not part of the
package: the redis client (`Get`, `Set`, `Del`), the retrying HTTP transport
(`client.Do`) and `encoding/json`.  The collaborators are kept abstract: a
`World σ δ` gives, for an arbitrary collaborator state `σ`, what each call
returns and how the state moves on.  The embedding threads that state through
the code in program order and appends every call, with its outcome, to a
chronological trace, so that statements such as "one GET is sent" or "the
refresh happens before any request" are statements about the trace.
-/

namespace Esi

/-! ## Data -/

/-- Go `error` values, by where they are made.  `ext` is an error handed back
by a collaborator (store, transport, JSON decoder, `http.NewRequest`), with its
message; `errorf` is an error this package builds itself with `fmt.Errorf`,
with the formatted message.  An error of a collaborator is never one of the
package's own errors, whatever its message. -/
inductive GoError where
  | ext (msg : String)
  | errorf (msg : String)
deriving DecidableEq, Repr

/-- The struct `tokenResponse` (http.go:16-21).  A field missing from the JSON
body keeps its Go zero value (`""`, `0`).  `ExpiresIn` is a Go `int`, 64 bits
wide on the platforms the program is built for; it is held here as an
integer and wrapped where the code multiplies it (`secondsDuration`). -/
structure tokenResponse where
  AccessToken : String
  TokenType : String
  ExpiresIn : Int
  RefreshToken : String
deriving DecidableEq, Repr

/-- An outgoing `http.Request`: method, URL, the headers in the order they were
added, and for the token exchange the string map that is marshalled into the
body. -/
structure Request where
  method : String
  url : String
  header : List (String × String)
  body : Option (List (String × String))
deriving DecidableEq, Repr

/-- The part of `http.Response` the code looks at. -/
structure Response where
  StatusCode : Int
  Status : String
  Body : String
deriving DecidableEq, Repr

deriving instance DecidableEq for Except

/-- One observable step of an invocation, in program order, together with what
the collaborator answered.  `send` is one call of `client.Do`, whatever
retries the transport makes inside it; `refreshEnter` and `refreshExit` mark
the call of `refreshAuth` and its return.  The `log.Printf` at http.go:49 and
the deferred `resp.Body.Close()` are not recorded. -/
inductive Event where
  | get (key : String) (res : Except String String)
  | set (key : String) (value : String) (expiration : Int) (res : Option String)
  | del (key : String) (res : Option String)
  | send (req : Request) (res : Except String Response)
  | decode (res : Option String)
  | refreshEnter
  | refreshExit (res : Option GoError)
deriving DecidableEq

/-- The collaborators of `HTTPHelp`: `σ` is their joint state (store contents,
network, clock), `δ` the type of the caller's destination `r`.  Each field
returns the error message on failure. -/
structure World (σ : Type) (δ : Type) where
  /-- Stands for `http.NewRequest(method, url, _)`: `some msg` when the request cannot be built. -/
  newRequest : String → String → Option String
  /-- Stands for `redis.Get(key).Result()`. -/
  get : String → σ → Except String String × σ
  /-- Stands for `redis.Set(key, value, expiration).Err()`, the expiration in nanoseconds. -/
  set : String → String → Int → σ → Option String × σ
  /-- Stands for `redis.Del(key).Err()`. -/
  del : String → σ → Option String × σ
  /-- Stands for `client.Do(req.WithContext(ctx))`. -/
  send : Request → σ → Except String Response × σ
  /-- Stands for `json.NewDecoder(body).Decode(&tokenResponse{})`. -/
  decodeToken : String → Except String tokenResponse
  /-- Stands for `json.NewDecoder(body).Decode(r)`: the error, and `r` afterwards. -/
  decodeInto : String → δ → Option String × δ

/-- Collaborator state paired with the trace of the calls made so far. -/
structure Run (σ : Type) where
  world : σ
  trace : List Event

/-- Append one event to the trace. -/
def Run.log {σ : Type} (s : Run σ) (e : Event) : Run σ :=
  ⟨s.world, s.trace ++ [e]⟩

/-! ## Constants -/

def userAgent : String × String := ("User-Agent", "pubkraal/go-evepraisal")

def tokenURL : String := "https://login.eveonline.com/oauth/token"

def accessKey : String := "evepraisal_access"

def refreshKey : String := "evepraisal_refresh"

def apiauthKey : String := "evepraisal_apiauth"

/-- Wrap-around of a mathematical integer into Go `int64`. -/
def wrapInt64 (x : Int) : Int :=
  (x + 9223372036854775808) % 18446744073709551616 - 9223372036854775808

/-- The constant `time.Second`, in nanoseconds. -/
def timeSecond : Int := 1000000000

/-- The expression `time.Duration(n) * time.Second` (http.go:144): an `int64` product. -/
def secondsDuration (n : Int) : Int :=
  wrapInt64 (n * timeSecond)

/-- The largest `expires_in` whose duration in nanoseconds still fits `int64`. -/
def maxSeconds : Int := 9223372036

/-! ## Store access (http.go:158-179) -/

/-- The call `h.redis.Get(key).Result()` with the `if err != nil` that follows it. -/
def redisGet {σ δ : Type} (w : World σ δ) (key : String) (s : Run σ) :
    Except GoError String × Run σ :=
  let out := w.get key s.world
  let s1 : Run σ := ⟨out.2, s.trace ++ [Event.get key out.1]⟩
  match out.1 with
  | .error msg => (.error (.ext msg), s1)
  | .ok val => (.ok val, s1)

def APIAuth {σ δ : Type} (w : World σ δ) (s : Run σ) : Except GoError String × Run σ :=
  redisGet w apiauthKey s

def getRefreshToken {σ δ : Type} (w : World σ δ) (s : Run σ) : Except GoError String × Run σ :=
  redisGet w refreshKey s

def getAccessToken {σ δ : Type} (w : World σ δ) (s : Run σ) : Except GoError String × Run σ :=
  redisGet w accessKey s

/-- The call `h.redis.Set(key, value, expiration).Err()`. -/
def redisSet {σ δ : Type} (w : World σ δ) (key value : String) (expiration : Int) (s : Run σ) :
    Option GoError × Run σ :=
  let out := w.set key value expiration s.world
  (out.1.map GoError.ext, ⟨out.2, s.trace ++ [Event.set key value expiration out.1]⟩)

/-- The call `h.redis.Del(key).Err()`. -/
def redisDel {σ δ : Type} (w : World σ δ) (key : String) (s : Run σ) :
    Option GoError × Run σ :=
  let out := w.del key s.world
  (out.1.map GoError.ext, ⟨out.2, s.trace ++ [Event.del key out.1]⟩)

/-- The call `h.client.Do(req.WithContext(h.ctx))`. -/
def clientDo {σ δ : Type} (w : World σ δ) (req : Request) (s : Run σ) :
    Except GoError Response × Run σ :=
  let out := w.send req s.world
  let s1 : Run σ := ⟨out.2, s.trace ++ [Event.send req out.1]⟩
  match out.1 with
  | .error msg => (.error (.ext msg), s1)
  | .ok resp => (.ok resp, s1)

/-! ## refreshAuth (http.go:87-156) -/

/-- The POST request `refreshAuth` builds (http.go:93-116). -/
def refreshRequest (refreshToken apiAuth : String) : Request :=
  Request.mk "POST" tokenURL
    [userAgent, ("Authorization", "Basic " ++ apiAuth), ("Content-Type", "application/json")]
    (some [("grant_type", "refresh_token"), ("refresh_token", refreshToken)])

/-- The body of `refreshAuth`, statement by statement.  `json.Marshal` of a
`map[string]string` has no failing case, so its `err` branch is not taken. -/
def refreshAuthBody {σ δ : Type} (w : World σ δ) (s : Run σ) : Option GoError × Run σ :=
  match getRefreshToken w s with
  | (.error err, s1) => (some err, s1)
  | (.ok refreshToken, s1) =>
    match w.newRequest "POST" tokenURL with
    | some msg => (some (.ext msg), s1)
    | none =>
      match APIAuth w s1 with
      | (.error err, s2) => (some err, s2)
      | (.ok apiAuth, s2) =>
        match clientDo w (refreshRequest refreshToken apiAuth) s2 with
        | (.error err, s3) => (some err, s3)
        | (.ok resp, s3) =>
          if resp.StatusCode = 200 then
            match w.decodeToken resp.Body with
            | .error msg => (some (.ext msg), s3.log (.decode (some msg)))
            | .ok newToken =>
              let s4 := s3.log (.decode none)
              match redisSet w accessKey newToken.AccessToken
                  (secondsDuration newToken.ExpiresIn) s4 with
              | (some err, s5) => (some err, s5)
              | (none, s5) =>
                match redisSet w refreshKey newToken.RefreshToken 0 s5 with
                | (some err, s6) => (some err, s6)
                | (none, s6) => (none, s6)
          else if resp.StatusCode = 400 then
            (some (.errorf "Refresh token rejected. Clearing local data"), s3)
          else if resp.StatusCode = 401 then
            let out := redisDel w apiauthKey s3
            (some (.errorf "API auth rejected. Clearing local data"), out.2)
          else
            (some (.errorf ("Error talking to esi: " ++ resp.Status)), s3)

/-- The method `refreshAuth`: its body, bracketed in the trace by the call and
the return with the returned error. -/
def refreshAuth {σ δ : Type} (w : World σ δ) (s : Run σ) : Option GoError × Run σ :=
  let out := refreshAuthBody w (s.log .refreshEnter)
  (out.1, out.2.log (.refreshExit out.1))

/-! ## FetchURL (http.go:37-85) -/

/-- How one pass through the `for` body ends: with a `return`, or by reaching
the end of the body / a `continue`, which both start the next pass. -/
inductive Step (σ : Type) (δ : Type) where
  | ret (err : Option GoError) (r : δ) (s : Run σ)
  | next (r : δ) (s : Run σ)

/-- Lines 59-82: send the request and interpret the status code. -/
def respond {σ δ : Type} (w : World σ δ) (needauth : Bool) (req : Request) (r : δ) (s : Run σ) :
    Step σ δ :=
  match clientDo w req s with
  | (.error err, s1) => .ret (some err) r s1
  | (.ok resp, s1) =>
    if resp.StatusCode = 200 then
      let out := w.decodeInto resp.Body r
      .ret (out.1.map GoError.ext) out.2 (s1.log (.decode out.1))
    else if resp.StatusCode = 404 then
      .ret none r s1
    else if resp.StatusCode = 403 then
      if needauth then
        match refreshAuth w s1 with
        | (some err, s2) => .ret (some err) r s2
        | (none, s2) => .next r s2
      else
        .ret (some (.errorf ("Error talking to esi: " ++ resp.Status))) r s1
    else
      .ret (some (.errorf ("Error talking to esi: " ++ resp.Status))) r s1

/-- One pass through the body of the `for` loop (lines 40-82). -/
def attempt {σ δ : Type} (w : World σ δ) (needauth : Bool) (url : String) (r : δ) (s : Run σ) :
    Step σ δ :=
  match w.newRequest "GET" url with
  | some msg => .ret (some (.ext msg)) r s
  | none =>
    if needauth then
      match getAccessToken w s with
      | (.error _, s1) =>
        match refreshAuth w s1 with
        | (some rerr, s2) => .ret (some rerr) r s2
        | (none, s2) => .next r s2
      | (.ok authToken, s1) =>
        respond w needauth
          (Request.mk "GET" url [userAgent, ("Authorization", "Bearer " ++ authToken)] none) r s1
    else
      respond w needauth (Request.mk "GET" url [userAgent] none) r s

/-- The loop `for i := 0; i < 2; i++`, by the number of passes still allowed,
followed by line 84. -/
def fetchLoop {σ δ : Type} (w : World σ δ) (needauth : Bool) (url : String) :
    Nat → δ → Run σ → Option GoError × δ × Run σ
  | 0, r, s => (some (.errorf "Hit end of loop"), r, s)
  | n + 1, r, s =>
    match attempt w needauth url r s with
    | .ret err r1 s1 => (err, r1, s1)
    | .next r1 s1 => fetchLoop w needauth url n r1 s1

/-- The method `FetchURL(needauth, url, r)`, started in collaborator state `σ0`
with an empty trace: the returned error, the destination and the final run. -/
def FetchURL {σ δ : Type} (w : World σ δ) (needauth : Bool) (url : String) (r : δ) (σ0 : σ) :
    Option GoError × δ × Run σ :=
  fetchLoop w needauth url 2 r ⟨σ0, []⟩

/-! ## Observing a trace -/

/-- The GET requests sent to the resource endpoint, in order. -/
def sentGets : List Event → List Request
  | [] => []
  | .send req _ :: t => if req.method = "GET" then req :: sentGets t else sentGets t
  | _ :: t => sentGets t

/-- Number of invocations of `refreshAuth`. -/
def refreshCalls : List Event → Nat
  | [] => 0
  | .refreshEnter :: t => refreshCalls t + 1
  | _ :: t => refreshCalls t

/-- What each invocation of `refreshAuth` returned, in order. -/
def refreshResults : List Event → List (Option GoError)
  | [] => []
  | .refreshExit res :: t => res :: refreshResults t
  | _ :: t => refreshResults t

/-- The keys read from the store, in order. -/
def storeReads : List Event → List String
  | [] => []
  | .get key _ :: t => key :: storeReads t
  | _ :: t => storeReads t

/-- A mutating store command, as issued (whatever the store answered). -/
inductive Mutation where
  | set (key : String) (value : String) (expiration : Int)
  | del (key : String)
deriving DecidableEq

/-- The mutating store commands issued, in order. -/
def mutations : List Event → List Mutation
  | [] => []
  | .set key value expiration _ :: t => .set key value expiration :: mutations t
  | .del key _ :: t => .del key :: mutations t
  | _ :: t => mutations t

/-- A store operation, transport call or JSON decode that failed. -/
def Event.failed : Event → Bool
  | .get _ (.error _) => true
  | .set _ _ _ (some _) => true
  | .del _ (some _) => true
  | .send _ (.error _) => true
  | .decode (some _) => true
  | _ => false

/-- A failed read of the access token: the one failure `FetchURL` answers with a refresh. -/
def Event.accessMiss : Event → Bool
  | .get key (.error _) => key = accessKey
  | _ => false

/-- The failed collaborator calls of a trace. -/
def failures (t : List Event) : List Event :=
  t.filter Event.failed

/-- The failed collaborator calls other than failed reads of the access token. -/
def hardFailures (t : List Event) : List Event :=
  t.filter (fun e => e.failed && !e.accessMiss)

/-- The statuses the resource endpoint answered to GET requests, in order. -/
def getStatuses : List Event → List Int
  | [] => []
  | .send req (.ok resp) :: t =>
    if req.method = "GET" then resp.StatusCode :: getStatuses t else getStatuses t
  | _ :: t => getStatuses t

/-! ## The store -/

/-- A stored value and its remaining lifetime in nanoseconds (`none`: the key does not expire). -/
structure Entry where
  value : String
  expiry : Option Int
deriving DecidableEq, Repr

/-- Contents of the key-value store. -/
abbrev Store := String → Option Entry

/-- Modelled from the spec: the effect of the redis client's `Set(key, value,
expiration)`, which is not part of `src/`.  The spec (section 6) has the
refresh token, written with expiration `0` at http.go:150, stored with no TTL
and the access token stored with the duration passed; a positive duration
is the TTL, any other one sets no TTL. -/
def Store.put (st : Store) (key value : String) (expiration : Int) : Store :=
  fun k => if k = key then some ⟨value, if 0 < expiration then some expiration else none⟩ else st k

/-- Modelled from the spec: the effect of the redis client's `Del(key)`, which is not part of `src/`. -/
def Store.erase (st : Store) (key : String) : Store :=
  fun k => if k = key then none else st k

/-- The effect on the store of one event: only a mutation the store accepted changes it. -/
def applyEvent (st : Store) : Event → Store
  | .set key value expiration none => st.put key value expiration
  | .del key none => st.erase key
  | _ => st

/-- The store after an invocation, from the store before it and the trace. -/
def replay (t : List Event) (st : Store) : Store :=
  t.foldl applyEvent st

/-! ## A scripted world -/

/-- A store together with the replies the transport will give, in order. -/
structure Mock where
  store : Store
  replies : List (Except String Response)

/-- A world for concrete runs: reads and writes go to the `Store` and never
fail except for a missing key, the transport answers from the script, a URL
is malformed exactly when it is `":"`, and JSON decoding is given by the two
functions passed in. -/
def mockWorld {δ : Type} (decodeToken : String → Except String tokenResponse)
    (decodeInto : String → δ → Option String × δ) : World Mock δ :=
  World.mk
    (fun _ url => if url = ":" then some "missing protocol scheme" else none)
    (fun key m =>
      match m.store key with
      | some e => (.ok e.value, m)
      | none => (.error "redis: nil", m))
    (fun key value expiration m => (none, ⟨m.store.put key value expiration, m.replies⟩))
    (fun key m => (none, ⟨m.store.erase key, m.replies⟩))
    (fun _ m =>
      match m.replies with
      | [] => (.error "no reply", m)
      | rep :: rest => (rep, ⟨m.store, rest⟩))
    decodeToken
    decodeInto

/-- A token decoder for concrete runs: the body names the lifetime, the tokens are fixed. -/
def sampleDecodeToken (body : String) : Except String tokenResponse :=
  if body = "expires_in:600" then .ok ⟨"A", "Bearer", 600, "B"⟩
  else if body = "expires_in:0" then .ok ⟨"A", "Bearer", 0, "B"⟩
  else if body = "expires_in:18446744074" then .ok ⟨"A", "Bearer", 18446744074, "B"⟩
  else if body = "expires_in:9223372037" then .ok ⟨"A", "Bearer", 9223372037, "B"⟩
  else .error "invalid character"

/-- A destination decoder for concrete runs: the destination becomes the body. -/
def sampleDecodeInto (body : String) (_ : String) : Option String × String :=
  if body = "" then (some "EOF", "") else (none, body)

/-- The scripted world used in the concrete runs. -/
def sampleWorld : World Mock String :=
  mockWorld sampleDecodeToken sampleDecodeInto

/-- A store holding the named credentials. -/
def storeOf (entries : List (String × String)) : Store :=
  fun k => (entries.lookup k).map (fun v => ⟨v, none⟩)

/-! ## Concrete stores and scripts -/

/-- A store holding a refresh token and an API-auth credential, but no access token. -/
def coldStore : Store :=
  storeOf [("evepraisal_refresh", "R"), ("evepraisal_apiauth", "K")]

/-- A store holding all three credentials; the access token is `"T"`. -/
def warmStore : Store :=
  storeOf [("evepraisal_access", "T"), ("evepraisal_refresh", "R"), ("evepraisal_apiauth", "K")]

/-- A reply of the transport with the given status code, status line and body. -/
def reply (code : Int) (status body : String) : Except String Response :=
  .ok ⟨code, status, body⟩

/-! ## The runs of `refreshAuth`, path by path -/

/-- The control-flow paths through the body of `refreshAuth`, one constructor per `return`:
`RefreshRun w σ0 d res σ1` says that, started in collaborator state `σ0`, the
body makes exactly the calls `d`, returns `res` and leaves the state `σ1`. -/
inductive RefreshRun {σ δ : Type} (w : World σ δ) (σ0 : σ) :
    List Event → Option GoError → σ → Prop where
  | noRefreshToken (m : String) (σ1 : σ)
      (h1 : w.get refreshKey σ0 = (.error m, σ1)) :
      RefreshRun w σ0 [.get refreshKey (.error m)] (some (.ext m)) σ1
  | badRequest (rt m : String) (σ1 : σ)
      (h1 : w.get refreshKey σ0 = (.ok rt, σ1))
      (hq : w.newRequest "POST" tokenURL = some m) :
      RefreshRun w σ0 [.get refreshKey (.ok rt)] (some (.ext m)) σ1
  | noAPIAuth (rt m : String) (σ1 σ2 : σ)
      (h1 : w.get refreshKey σ0 = (.ok rt, σ1))
      (hq : w.newRequest "POST" tokenURL = none)
      (h2 : w.get apiauthKey σ1 = (.error m, σ2)) :
      RefreshRun w σ0 [.get refreshKey (.ok rt), .get apiauthKey (.error m)] (some (.ext m)) σ2
  | sendFailed (rt auth m : String) (σ1 σ2 σ3 : σ)
      (h1 : w.get refreshKey σ0 = (.ok rt, σ1))
      (hq : w.newRequest "POST" tokenURL = none)
      (h2 : w.get apiauthKey σ1 = (.ok auth, σ2))
      (h3 : w.send (refreshRequest rt auth) σ2 = (.error m, σ3)) :
      RefreshRun w σ0
        [.get refreshKey (.ok rt), .get apiauthKey (.ok auth),
          .send (refreshRequest rt auth) (.error m)]
        (some (.ext m)) σ3
  | decodeFailed (rt auth m : String) (resp : Response) (σ1 σ2 σ3 : σ)
      (h1 : w.get refreshKey σ0 = (.ok rt, σ1))
      (hq : w.newRequest "POST" tokenURL = none)
      (h2 : w.get apiauthKey σ1 = (.ok auth, σ2))
      (h3 : w.send (refreshRequest rt auth) σ2 = (.ok resp, σ3))
      (hs : resp.StatusCode = 200)
      (hd : w.decodeToken resp.Body = .error m) :
      RefreshRun w σ0
        [.get refreshKey (.ok rt), .get apiauthKey (.ok auth),
          .send (refreshRequest rt auth) (.ok resp), .decode (some m)]
        (some (.ext m)) σ3
  | setAccessFailed (rt auth m : String) (resp : Response) (tok : tokenResponse) (σ1 σ2 σ3 σ4 : σ)
      (h1 : w.get refreshKey σ0 = (.ok rt, σ1))
      (hq : w.newRequest "POST" tokenURL = none)
      (h2 : w.get apiauthKey σ1 = (.ok auth, σ2))
      (h3 : w.send (refreshRequest rt auth) σ2 = (.ok resp, σ3))
      (hs : resp.StatusCode = 200)
      (hd : w.decodeToken resp.Body = .ok tok)
      (h4 : w.set accessKey tok.AccessToken (secondsDuration tok.ExpiresIn) σ3 = (some m, σ4)) :
      RefreshRun w σ0
        [.get refreshKey (.ok rt), .get apiauthKey (.ok auth),
          .send (refreshRequest rt auth) (.ok resp), .decode none,
          .set accessKey tok.AccessToken (secondsDuration tok.ExpiresIn) (some m)]
        (some (.ext m)) σ4
  | setRefreshFailed (rt auth m : String) (resp : Response) (tok : tokenResponse)
      (σ1 σ2 σ3 σ4 σ5 : σ)
      (h1 : w.get refreshKey σ0 = (.ok rt, σ1))
      (hq : w.newRequest "POST" tokenURL = none)
      (h2 : w.get apiauthKey σ1 = (.ok auth, σ2))
      (h3 : w.send (refreshRequest rt auth) σ2 = (.ok resp, σ3))
      (hs : resp.StatusCode = 200)
      (hd : w.decodeToken resp.Body = .ok tok)
      (h4 : w.set accessKey tok.AccessToken (secondsDuration tok.ExpiresIn) σ3 = (none, σ4))
      (h5 : w.set refreshKey tok.RefreshToken 0 σ4 = (some m, σ5)) :
      RefreshRun w σ0
        [.get refreshKey (.ok rt), .get apiauthKey (.ok auth),
          .send (refreshRequest rt auth) (.ok resp), .decode none,
          .set accessKey tok.AccessToken (secondsDuration tok.ExpiresIn) none,
          .set refreshKey tok.RefreshToken 0 (some m)]
        (some (.ext m)) σ5
  | stored (rt auth : String) (resp : Response) (tok : tokenResponse) (σ1 σ2 σ3 σ4 σ5 : σ)
      (h1 : w.get refreshKey σ0 = (.ok rt, σ1))
      (hq : w.newRequest "POST" tokenURL = none)
      (h2 : w.get apiauthKey σ1 = (.ok auth, σ2))
      (h3 : w.send (refreshRequest rt auth) σ2 = (.ok resp, σ3))
      (hs : resp.StatusCode = 200)
      (hd : w.decodeToken resp.Body = .ok tok)
      (h4 : w.set accessKey tok.AccessToken (secondsDuration tok.ExpiresIn) σ3 = (none, σ4))
      (h5 : w.set refreshKey tok.RefreshToken 0 σ4 = (none, σ5)) :
      RefreshRun w σ0
        [.get refreshKey (.ok rt), .get apiauthKey (.ok auth),
          .send (refreshRequest rt auth) (.ok resp), .decode none,
          .set accessKey tok.AccessToken (secondsDuration tok.ExpiresIn) none,
          .set refreshKey tok.RefreshToken 0 none]
        none σ5
  | status400 (rt auth : String) (resp : Response) (σ1 σ2 σ3 : σ)
      (h1 : w.get refreshKey σ0 = (.ok rt, σ1))
      (hq : w.newRequest "POST" tokenURL = none)
      (h2 : w.get apiauthKey σ1 = (.ok auth, σ2))
      (h3 : w.send (refreshRequest rt auth) σ2 = (.ok resp, σ3))
      (hs : resp.StatusCode = 400) :
      RefreshRun w σ0
        [.get refreshKey (.ok rt), .get apiauthKey (.ok auth),
          .send (refreshRequest rt auth) (.ok resp)]
        (some (.errorf "Refresh token rejected. Clearing local data")) σ3
  | status401 (rt auth : String) (resp : Response) (dr : Option String) (σ1 σ2 σ3 σ4 : σ)
      (h1 : w.get refreshKey σ0 = (.ok rt, σ1))
      (hq : w.newRequest "POST" tokenURL = none)
      (h2 : w.get apiauthKey σ1 = (.ok auth, σ2))
      (h3 : w.send (refreshRequest rt auth) σ2 = (.ok resp, σ3))
      (hs : resp.StatusCode = 401)
      (h4 : w.del apiauthKey σ3 = (dr, σ4)) :
      RefreshRun w σ0
        [.get refreshKey (.ok rt), .get apiauthKey (.ok auth),
          .send (refreshRequest rt auth) (.ok resp), .del apiauthKey dr]
        (some (.errorf "API auth rejected. Clearing local data")) σ4
  | statusOther (rt auth : String) (resp : Response) (σ1 σ2 σ3 : σ)
      (h1 : w.get refreshKey σ0 = (.ok rt, σ1))
      (hq : w.newRequest "POST" tokenURL = none)
      (h2 : w.get apiauthKey σ1 = (.ok auth, σ2))
      (h3 : w.send (refreshRequest rt auth) σ2 = (.ok resp, σ3))
      (hs200 : resp.StatusCode ≠ 200) (hs400 : resp.StatusCode ≠ 400)
      (hs401 : resp.StatusCode ≠ 401) :
      RefreshRun w σ0
        [.get refreshKey (.ok rt), .get apiauthKey (.ok auth),
          .send (refreshRequest rt auth) (.ok resp)]
        (some (.errorf ("Error talking to esi: " ++ resp.Status))) σ3

/-! ## The passes of the `FetchURL` loop, path by path -/

/-- The GET request of one pass (http.go:40-57). -/
def getRequest (url : String) (authorization : List (String × String)) : Request :=
  Request.mk "GET" url (userAgent :: authorization) none

/-- Lines 46-58 when they fall through to the request: without `needauth`
nothing is read and no header is added; with it the access token was read
successfully and is attached as a Bearer credential. -/
inductive Prepared {σ δ : Type} (w : World σ δ) (needauth : Bool) (url : String) (σ0 : σ) :
    List Event → Request → σ → Prop where
  | anonymous (hn : needauth = false) :
      Prepared w needauth url σ0 [] (getRequest url []) σ0
  | bearer (tok : String) (σ1 : σ) (hn : needauth = true)
      (h1 : w.get accessKey σ0 = (.ok tok, σ1)) :
      Prepared w needauth url σ0 [.get accessKey (.ok tok)]
        (getRequest url [("Authorization", "Bearer " ++ tok)]) σ1

/-- The control-flow paths through one pass of the loop body, one constructor
per way of leaving it. -/
inductive AttemptRun {σ δ : Type} (w : World σ δ) (needauth : Bool) (url : String) (r : δ)
    (s : Run σ) : Step σ δ → Prop where
  | badURL (m : String)
      (hq : w.newRequest "GET" url = some m) :
      AttemptRun w needauth url r s (.ret (some (.ext m)) r s)
  | missRefreshFailed (m : String) (e : GoError) (dr : List Event) (σ1 σ2 : σ)
      (hq : w.newRequest "GET" url = none) (hn : needauth = true)
      (h1 : w.get accessKey s.world = (.error m, σ1))
      (hr : RefreshRun w σ1 dr (some e) σ2) :
      AttemptRun w needauth url r s
        (.ret (some e) r
          ⟨σ2, s.trace ++ (.get accessKey (.error m) :: .refreshEnter
            :: (dr ++ [.refreshExit (some e)]))⟩)
  | missRefreshed (m : String) (dr : List Event) (σ1 σ2 : σ)
      (hq : w.newRequest "GET" url = none) (hn : needauth = true)
      (h1 : w.get accessKey s.world = (.error m, σ1))
      (hr : RefreshRun w σ1 dr none σ2) :
      AttemptRun w needauth url r s
        (.next r
          ⟨σ2, s.trace ++ (.get accessKey (.error m) :: .refreshEnter
            :: (dr ++ [.refreshExit none]))⟩)
  | sendFailed (pre : List Event) (req : Request) (m : String) (σ1 σ2 : σ)
      (hq : w.newRequest "GET" url = none)
      (hp : Prepared w needauth url s.world pre req σ1)
      (h2 : w.send req σ1 = (.error m, σ2)) :
      AttemptRun w needauth url r s
        (.ret (some (.ext m)) r ⟨σ2, s.trace ++ (pre ++ [.send req (.error m)])⟩)
  | status200 (pre : List Event) (req : Request) (resp : Response) (σ1 σ2 : σ)
      (hq : w.newRequest "GET" url = none)
      (hp : Prepared w needauth url s.world pre req σ1)
      (h2 : w.send req σ1 = (.ok resp, σ2))
      (hs : resp.StatusCode = 200) :
      AttemptRun w needauth url r s
        (.ret ((w.decodeInto resp.Body r).1.map GoError.ext) (w.decodeInto resp.Body r).2
          ⟨σ2, s.trace ++ (pre ++ [.send req (.ok resp), .decode (w.decodeInto resp.Body r).1])⟩)
  | status404 (pre : List Event) (req : Request) (resp : Response) (σ1 σ2 : σ)
      (hq : w.newRequest "GET" url = none)
      (hp : Prepared w needauth url s.world pre req σ1)
      (h2 : w.send req σ1 = (.ok resp, σ2))
      (hs : resp.StatusCode = 404) :
      AttemptRun w needauth url r s
        (.ret none r ⟨σ2, s.trace ++ (pre ++ [.send req (.ok resp)])⟩)
  | status403Anonymous (pre : List Event) (req : Request) (resp : Response) (σ1 σ2 : σ)
      (hq : w.newRequest "GET" url = none)
      (hp : Prepared w needauth url s.world pre req σ1)
      (h2 : w.send req σ1 = (.ok resp, σ2))
      (hs : resp.StatusCode = 403) (hn : needauth = false) :
      AttemptRun w needauth url r s
        (.ret (some (.errorf ("Error talking to esi: " ++ resp.Status))) r
          ⟨σ2, s.trace ++ (pre ++ [.send req (.ok resp)])⟩)
  | status403RefreshFailed (pre : List Event) (req : Request) (resp : Response) (e : GoError)
      (dr : List Event) (σ1 σ2 σ3 : σ)
      (hq : w.newRequest "GET" url = none)
      (hp : Prepared w needauth url s.world pre req σ1)
      (h2 : w.send req σ1 = (.ok resp, σ2))
      (hs : resp.StatusCode = 403) (hn : needauth = true)
      (hr : RefreshRun w σ2 dr (some e) σ3) :
      AttemptRun w needauth url r s
        (.ret (some e) r
          ⟨σ3, s.trace ++ (pre ++ .send req (.ok resp) :: .refreshEnter
            :: (dr ++ [.refreshExit (some e)]))⟩)
  | status403Refreshed (pre : List Event) (req : Request) (resp : Response)
      (dr : List Event) (σ1 σ2 σ3 : σ)
      (hq : w.newRequest "GET" url = none)
      (hp : Prepared w needauth url s.world pre req σ1)
      (h2 : w.send req σ1 = (.ok resp, σ2))
      (hs : resp.StatusCode = 403) (hn : needauth = true)
      (hr : RefreshRun w σ2 dr none σ3) :
      AttemptRun w needauth url r s
        (.next r
          ⟨σ3, s.trace ++ (pre ++ .send req (.ok resp) :: .refreshEnter
            :: (dr ++ [.refreshExit none]))⟩)
  | statusOther (pre : List Event) (req : Request) (resp : Response) (σ1 σ2 : σ)
      (hq : w.newRequest "GET" url = none)
      (hp : Prepared w needauth url s.world pre req σ1)
      (h2 : w.send req σ1 = (.ok resp, σ2))
      (hs200 : resp.StatusCode ≠ 200) (hs404 : resp.StatusCode ≠ 404)
      (hs403 : resp.StatusCode ≠ 403) :
      AttemptRun w needauth url r s
        (.ret (some (.errorf ("Error talking to esi: " ++ resp.Status))) r
          ⟨σ2, s.trace ++ (pre ++ [.send req (.ok resp)])⟩)

/-! ## Facts about the calls of one pass -/

/-- The run a pass ends in. -/
def Step.run {σ δ : Type} : Step σ δ → Run σ
  | .ret _ _ s => s
  | .next _ s => s

/-- Facts about the calls `d` of a pass that ends in `return err`. -/
def RetFacts (d : List Event) (err : Option GoError) : Prop :=
  (sentGets d).length ≤ 1 ∧ refreshCalls d ≤ 1 ∧ (refreshResults d).length = refreshCalls d
    ∧ refreshResults d ≠ [none]
    ∧ err ≠ some (.errorf "Hit end of loop")
    ∧ (err = none → hardFailures d = []
        ∧ ((getStatuses d).getLast? = some 200 ∨ (getStatuses d).getLast? = some 404))

/-- Facts about the calls `d` of a pass that goes on to the next pass. -/
def NextFacts (needauth : Bool) (d : List Event) : Prop :=
  (sentGets d).length ≤ 1 ∧ refreshCalls d = 1 ∧ refreshResults d = [none]
    ∧ needauth = true ∧ hardFailures d = [] ∧ ∃ p, d = p ++ [Event.refreshExit none]

/-- The facts that hold of the calls `d` of a pass, by the way the pass ends. -/
def StepFacts {σ δ : Type} (needauth : Bool) (d : List Event) : Step σ δ → Prop
  | .ret err _ _ => RetFacts d err
  | .next _ _ => NextFacts needauth d

/-- Number of failed reads of the access token. -/
def accessMisses (t : List Event) : Nat :=
  (t.filter Event.accessMiss).length

/-- The scripted world with a store that refuses every `Del` and leaves its contents as they are. -/
def brokenDelWorld : World Mock String :=
  World.mk sampleWorld.newRequest sampleWorld.get sampleWorld.set
    (fun _ m => (some "i/o timeout", m))
    sampleWorld.send sampleWorld.decodeToken sampleWorld.decodeInto

/-! ## The code follows the paths -/

theorem refreshAuthBody_run {σ δ : Type} (w : World σ δ) (s : Run σ) :
    ∃ d res σ1, refreshAuthBody w s = (res, ⟨σ1, s.trace ++ d⟩) ∧ RefreshRun w s.world d res σ1 := by
  rcases h1 : w.get refreshKey s.world with ⟨m | rt, σ1⟩
  · exact ⟨_, _, _, by simp [refreshAuthBody, getRefreshToken, redisGet, h1],
      .noRefreshToken m σ1 h1⟩
  rcases hq : w.newRequest "POST" tokenURL with _ | m
  swap
  · exact ⟨_, _, _, by simp [refreshAuthBody, getRefreshToken, redisGet, h1, hq],
      .badRequest rt m σ1 h1 hq⟩
  rcases h2 : w.get apiauthKey σ1 with ⟨m | auth, σ2⟩
  · exact ⟨_, _, _, by simp [refreshAuthBody, getRefreshToken, APIAuth, redisGet, h1, hq, h2],
      .noAPIAuth rt m σ1 σ2 h1 hq h2⟩
  rcases h3 : w.send (refreshRequest rt auth) σ2 with ⟨m | resp, σ3⟩
  · exact ⟨_, _, _,
      by simp [refreshAuthBody, getRefreshToken, APIAuth, redisGet, clientDo, h1, hq, h2, h3],
      .sendFailed rt auth m σ1 σ2 σ3 h1 hq h2 h3⟩
  by_cases hs : resp.StatusCode = 200
  · rcases hd : w.decodeToken resp.Body with m | tok
    · exact ⟨_, _, _,
        by simp [refreshAuthBody, getRefreshToken, APIAuth, redisGet, clientDo, Run.log,
          h1, hq, h2, h3, hs, hd],
        .decodeFailed rt auth m resp σ1 σ2 σ3 h1 hq h2 h3 hs hd⟩
    rcases h4 : w.set accessKey tok.AccessToken (secondsDuration tok.ExpiresIn) σ3
      with ⟨_ | m, σ4⟩
    swap
    · exact ⟨_, _, _,
        by simp [refreshAuthBody, getRefreshToken, APIAuth, redisGet, clientDo, redisSet, Run.log,
          h1, hq, h2, h3, hs, hd, h4],
        .setAccessFailed rt auth m resp tok σ1 σ2 σ3 σ4 h1 hq h2 h3 hs hd h4⟩
    rcases h5 : w.set refreshKey tok.RefreshToken 0 σ4 with ⟨_ | m, σ5⟩
    · exact ⟨_, _, _,
        by simp [refreshAuthBody, getRefreshToken, APIAuth, redisGet, clientDo, redisSet, Run.log,
          h1, hq, h2, h3, hs, hd, h4, h5],
        .stored rt auth resp tok σ1 σ2 σ3 σ4 σ5 h1 hq h2 h3 hs hd h4 h5⟩
    · exact ⟨_, _, _,
        by simp [refreshAuthBody, getRefreshToken, APIAuth, redisGet, clientDo, redisSet, Run.log,
          h1, hq, h2, h3, hs, hd, h4, h5],
        .setRefreshFailed rt auth m resp tok σ1 σ2 σ3 σ4 σ5 h1 hq h2 h3 hs hd h4 h5⟩
  by_cases hs4 : resp.StatusCode = 400
  · exact ⟨_, _, _,
      by simp [refreshAuthBody, getRefreshToken, APIAuth, redisGet, clientDo, h1, hq, h2, h3, hs4],
      .status400 rt auth resp σ1 σ2 σ3 h1 hq h2 h3 hs4⟩
  by_cases hs1 : resp.StatusCode = 401
  · rcases h4 : w.del apiauthKey σ3 with ⟨dr, σ4⟩
    exact ⟨_, _, _,
      by simp [refreshAuthBody, getRefreshToken, APIAuth, redisGet, clientDo, redisDel,
        h1, hq, h2, h3, hs1, h4],
      .status401 rt auth resp dr σ1 σ2 σ3 σ4 h1 hq h2 h3 hs1 h4⟩
  · exact ⟨_, _, _,
      by simp [refreshAuthBody, getRefreshToken, APIAuth, redisGet, clientDo,
        h1, hq, h2, h3, hs, hs4, hs1],
      .statusOther rt auth resp σ1 σ2 σ3 h1 hq h2 h3 hs hs4 hs1⟩

/-- Every invocation of `refreshAuth` follows one of the paths of `RefreshRun`,
and its trace is the call, the calls of that path, and the return. -/
theorem refreshAuth_run {σ δ : Type} (w : World σ δ) (s : Run σ) :
    ∃ d res σ1, refreshAuth w s
        = (res, ⟨σ1, s.trace ++ Event.refreshEnter :: (d ++ [Event.refreshExit res])⟩)
      ∧ RefreshRun w s.world d res σ1 := by
  obtain ⟨d, res, σ1, h, hr⟩ := refreshAuthBody_run w (s.log .refreshEnter)
  refine ⟨d, res, σ1, ?_, hr⟩
  unfold refreshAuth
  rw [h]
  simp [Run.log]

/-- Lines 59-82 follow one of the paths of `AttemptRun` once the request is prepared. -/
theorem respond_run {σ δ : Type} (w : World σ δ) (needauth : Bool) (url : String) (r : δ)
    (s : Run σ) (pre : List Event) (req : Request) (σ1 : σ)
    (hq : w.newRequest "GET" url = none)
    (hp : Prepared w needauth url s.world pre req σ1) :
    AttemptRun w needauth url r s (respond w needauth req r ⟨σ1, s.trace ++ pre⟩) := by
  rcases h2 : w.send req σ1 with ⟨m | resp, σ2⟩
  · have h := AttemptRun.sendFailed (r := r) pre req m σ1 σ2 hq hp h2
    simpa [respond, clientDo, h2] using h
  by_cases hs : resp.StatusCode = 200
  · have h := AttemptRun.status200 (r := r) pre req resp σ1 σ2 hq hp h2 hs
    simpa [respond, clientDo, h2, hs, Run.log] using h
  by_cases hs4 : resp.StatusCode = 404
  · have h := AttemptRun.status404 (r := r) pre req resp σ1 σ2 hq hp h2 hs4
    simpa [respond, clientDo, h2, hs4] using h
  by_cases hs3 : resp.StatusCode = 403
  · cases needauth with
    | false =>
      have h := AttemptRun.status403Anonymous (r := r) pre req resp σ1 σ2 hq hp h2 hs3 rfl
      simpa [respond, clientDo, h2, hs3] using h
    | true =>
      obtain ⟨dr, res, σ3, he, hr⟩ :=
        refreshAuth_run w ⟨σ2, s.trace ++ (pre ++ [Event.send req (.ok resp)])⟩
      cases res with
      | none =>
        have h := AttemptRun.status403Refreshed (r := r) pre req resp dr σ1 σ2 σ3 hq hp h2 hs3 rfl hr
        simpa [respond, clientDo, h2, hs3, he] using h
      | some e =>
        have h := AttemptRun.status403RefreshFailed (r := r) pre req resp e dr σ1 σ2 σ3
          hq hp h2 hs3 rfl hr
        simpa [respond, clientDo, h2, hs3, he] using h
  · have h := AttemptRun.statusOther (r := r) pre req resp σ1 σ2 hq hp h2 hs hs4 hs3
    simpa [respond, clientDo, h2, hs, hs4, hs3] using h

/-- Every pass through the loop body follows one of the paths of `AttemptRun`. -/
theorem attempt_run {σ δ : Type} (w : World σ δ) (needauth : Bool) (url : String) (r : δ)
    (s : Run σ) :
    AttemptRun w needauth url r s (attempt w needauth url r s) := by
  rcases hq : w.newRequest "GET" url with _ | m
  swap
  · simpa [attempt, hq] using @AttemptRun.badURL _ _ w needauth url r s m hq
  cases needauth with
  | false =>
    have h := respond_run w false url r s [] _ s.world hq (.anonymous rfl)
    simpa [attempt, hq, getRequest] using h
  | true =>
    rcases h1 : w.get accessKey s.world with ⟨m | tok, σ1⟩
    · obtain ⟨dr, res, σ2, he, hr⟩ :=
        refreshAuth_run w ⟨σ1, s.trace ++ [Event.get accessKey (.error m)]⟩
      cases res with
      | none =>
        have h := AttemptRun.missRefreshed (r := r) m dr σ1 σ2 hq rfl h1 hr
        simpa [attempt, hq, getAccessToken, redisGet, h1, he] using h
      | some e =>
        have h := AttemptRun.missRefreshFailed (r := r) m e dr σ1 σ2 hq rfl h1 hr
        simpa [attempt, hq, getAccessToken, redisGet, h1, he] using h
    · have h := respond_run w true url r s _ _ σ1 hq (.bearer tok σ1 rfl h1)
      simpa [attempt, hq, getAccessToken, redisGet, h1, getRequest] using h

/-! ## Observers and concatenation -/

theorem sentGets_append (a b : List Event) : sentGets (a ++ b) = sentGets a ++ sentGets b := by
  induction a with
  | nil => rfl
  | cons e t ih =>
    cases e <;> simp [sentGets, ih]
    split <;> simp

theorem getStatuses_append (a b : List Event) :
    getStatuses (a ++ b) = getStatuses a ++ getStatuses b := by
  induction a with
  | nil => rfl
  | cons e t ih =>
    cases e with
    | send req res =>
      cases res <;> simp [getStatuses, ih]
      split <;> simp
    | _ => simp [getStatuses, ih]

theorem refreshCalls_append (a b : List Event) :
    refreshCalls (a ++ b) = refreshCalls a + refreshCalls b := by
  induction a with
  | nil => simp [refreshCalls]
  | cons e t ih => cases e <;> simp [refreshCalls, ih]; omega

theorem refreshResults_append (a b : List Event) :
    refreshResults (a ++ b) = refreshResults a ++ refreshResults b := by
  induction a with
  | nil => rfl
  | cons e t ih => cases e <;> simp [refreshResults, ih]

theorem storeReads_append (a b : List Event) :
    storeReads (a ++ b) = storeReads a ++ storeReads b := by
  induction a with
  | nil => rfl
  | cons e t ih => cases e <;> simp [storeReads, ih]

theorem mutations_append (a b : List Event) :
    mutations (a ++ b) = mutations a ++ mutations b := by
  induction a with
  | nil => rfl
  | cons e t ih => cases e <;> simp [mutations, ih]

theorem failures_append (a b : List Event) : failures (a ++ b) = failures a ++ failures b := by
  simp [failures]

theorem hardFailures_append (a b : List Event) :
    hardFailures (a ++ b) = hardFailures a ++ hardFailures b := by
  simp [hardFailures]

theorem replay_append (a b : List Event) (st : Store) :
    replay (a ++ b) st = replay b (replay a st) := by
  simp [replay]

/-- No message built for a status line is the exhausted-retries message. -/
theorem status_msg_ne (st : String) : "Error talking to esi: " ++ st ≠ "Hit end of loop" := by
  intro h
  have h2 := congrArg String.data h
  simp [String.data_append] at h2

/-! ## What every run of `refreshAuth` has in common -/

/-- Inside `refreshAuth` no GET is sent, no nested refresh happens, the access
token is not read, the exhausted-retries error is not produced, and a run that
returns `nil` had no failing call. -/
theorem refreshRun_facts {σ δ : Type} {w : World σ δ} {σ0 σ1 : σ} {d : List Event}
    {res : Option GoError} (h : RefreshRun w σ0 d res σ1) :
    sentGets d = [] ∧ getStatuses d = [] ∧ refreshCalls d = 0 ∧ refreshResults d = []
      ∧ hardFailures d = failures d
      ∧ (res = none → failures d = [])
      ∧ res ≠ some (.errorf "Hit end of loop") := by
  cases h
  case status401 rt auth resp dr σ1 σ2 σ3 h1 hq h2 h3 hs h4 =>
    cases dr <;>
      simp [sentGets, getStatuses, refreshCalls, refreshResults, hardFailures, failures,
        Event.failed, Event.accessMiss, refreshRequest]
  all_goals
    simp [sentGets, getStatuses, refreshCalls, refreshResults, hardFailures, failures,
      Event.failed, Event.accessMiss, refreshRequest, accessKey, refreshKey, apiauthKey,
      status_msg_ne]

/-- Preparing the request sends nothing and fails nowhere; the request is a GET. -/
theorem prepared_facts {σ δ : Type} {w : World σ δ} {needauth : Bool} {url : String}
    {σ0 σ1 : σ} {pre : List Event} {req : Request}
    (h : Prepared w needauth url σ0 pre req σ1) :
    sentGets pre = [] ∧ getStatuses pre = [] ∧ refreshCalls pre = 0 ∧ refreshResults pre = []
      ∧ failures pre = [] ∧ hardFailures pre = [] ∧ req.method = "GET" := by
  cases h <;>
    simp [sentGets, getStatuses, refreshCalls, refreshResults, hardFailures, failures,
      Event.failed, Event.accessMiss, getRequest]

/-! ## What the passes of the loop have in common -/

theorem attemptRun_facts {σ δ : Type} {w : World σ δ} {needauth : Bool} {url : String} {r : δ}
    {s : Run σ} {st : Step σ δ} (h : AttemptRun w needauth url r s st) :
    ∃ d, st.run.trace = s.trace ++ d ∧ StepFacts needauth d st := by
  cases h
  all_goals simp only [StepFacts]
  case badURL m hq =>
    exact ⟨[], by simp [Step.run], by
      simp [RetFacts, sentGets, refreshCalls, refreshResults]⟩
  case missRefreshFailed m e dr σ1 σ2 hq hn h1 hr =>
    obtain ⟨f1, f2, f3, f4, f5, f6, f7⟩ := (refreshRun_facts hr)
    refine ⟨_, rfl, ?_⟩
    simp [RetFacts, sentGets, refreshCalls, refreshResults, sentGets_append,
      refreshCalls_append, refreshResults_append, f1, f3, f4, f7]
  case missRefreshed m dr σ1 σ2 hq hn h1 hr =>
    obtain ⟨f1, f2, f3, f4, f5, f6, f7⟩ := (refreshRun_facts hr)
    refine ⟨_, rfl, ?_⟩
    refine ⟨?_, ?_, ?_, hn, ?_, Event.get accessKey (.error m) :: Event.refreshEnter :: dr, by simp⟩
    · simp [sentGets, sentGets_append, f1]
    · simp [refreshCalls, refreshCalls_append, f3]
    · simp [refreshResults, refreshResults_append, f4]
    · have h0 : hardFailures dr = [] := by rw [f5]; exact f6 rfl
      have hc : ∀ t, hardFailures (Event.get accessKey (.error m) :: Event.refreshEnter :: t)
          = hardFailures t := by
        intro t
        simp [hardFailures, Event.failed, Event.accessMiss]
      rw [hc, hardFailures_append, h0]
      simp [hardFailures, Event.failed]
  case sendFailed pre req m σ1 σ2 hq hp h2 =>
    obtain ⟨p1, p2, p3, p4, p5, p6, p7⟩ := (prepared_facts hp)
    refine ⟨_, rfl, ?_⟩
    simp [RetFacts, sentGets, refreshCalls, refreshResults, sentGets_append,
      refreshCalls_append, refreshResults_append, p1, p3, p4, p7]
  case status200 pre req resp σ1 σ2 hq hp h2 hs =>
    obtain ⟨p1, p2, p3, p4, p5, p6, p7⟩ := (prepared_facts hp)
    refine ⟨_, rfl, ?_⟩
    simp only [RetFacts]
    refine ⟨?_, ?_, ?_, ?_, ?_, ?_⟩
    · simp [sentGets, sentGets_append, p1, p7]
    · simp [refreshCalls, refreshCalls_append, p3]
    · simp [refreshCalls, refreshCalls_append, refreshResults, refreshResults_append, p3, p4]
    · simp [refreshResults, refreshResults_append, p4]
    · cases (w.decodeInto resp.Body r).1 <;> simp
    · intro he
      have hd : (w.decodeInto resp.Body r).1 = none := by
        cases hx : (w.decodeInto resp.Body r).1 with
        | none => rfl
        | some m => rw [hx] at he; simp at he
      rw [hd]
      refine ⟨?_, Or.inl ?_⟩
      · rw [hardFailures_append, p6]
        simp [hardFailures, Event.failed]
      · simp [getStatuses, getStatuses_append, p2, p7, hs]
  case status404 pre req resp σ1 σ2 hq hp h2 hs =>
    obtain ⟨p1, p2, p3, p4, p5, p6, p7⟩ := (prepared_facts hp)
    refine ⟨_, rfl, ?_⟩
    simp only [RetFacts]
    refine ⟨?_, ?_, ?_, ?_, ?_, ?_⟩
    · simp [sentGets, sentGets_append, p1, p7]
    · simp [refreshCalls, refreshCalls_append, p3]
    · simp [refreshCalls, refreshCalls_append, refreshResults, refreshResults_append, p3, p4]
    · simp [refreshResults, refreshResults_append, p4]
    · simp
    · intro _
      refine ⟨?_, Or.inr ?_⟩
      · rw [hardFailures_append, p6]
        simp [hardFailures, Event.failed]
      · simp [getStatuses, getStatuses_append, p2, p7, hs]
  case status403Anonymous pre req resp σ1 σ2 hq hp h2 hs hn =>
    obtain ⟨p1, p2, p3, p4, p5, p6, p7⟩ := (prepared_facts hp)
    refine ⟨_, rfl, ?_⟩
    simp [RetFacts, sentGets, refreshCalls, refreshResults, sentGets_append,
      refreshCalls_append, refreshResults_append, p1, p3, p4, p7, status_msg_ne]
  case status403RefreshFailed pre req resp e dr σ1 σ2 σ3 hq hp h2 hs hn hr =>
    obtain ⟨p1, p2, p3, p4, p5, p6, p7⟩ := (prepared_facts hp)
    obtain ⟨f1, f2, f3, f4, f5, f6, f7⟩ := (refreshRun_facts hr)
    refine ⟨_, rfl, ?_⟩
    simp [RetFacts, sentGets, refreshCalls, refreshResults, sentGets_append,
      refreshCalls_append, refreshResults_append, p1, p3, p4, p7, f1, f3, f4, f7]
  case status403Refreshed pre req resp dr σ1 σ2 σ3 hq hp h2 hs hn hr =>
    obtain ⟨p1, p2, p3, p4, p5, p6, p7⟩ := (prepared_facts hp)
    obtain ⟨f1, f2, f3, f4, f5, f6, f7⟩ := (refreshRun_facts hr)
    refine ⟨_, rfl, ?_⟩
    refine ⟨?_, ?_, ?_, hn, ?_,
      pre ++ Event.send req (.ok resp) :: Event.refreshEnter :: dr, by simp⟩
    · simp [sentGets, sentGets_append, p1, p7, f1]
    · simp [refreshCalls, refreshCalls_append, p3, f3]
    · simp [refreshResults, refreshResults_append, p4, f4]
    · have h0 : hardFailures dr = [] := by rw [f5]; exact f6 rfl
      have hc : ∀ t, hardFailures (Event.send req (.ok resp) :: Event.refreshEnter :: t)
          = hardFailures t := by
        intro t
        simp [hardFailures, Event.failed]
      rw [hardFailures_append, p6, List.nil_append, hc, hardFailures_append, h0]
      simp [hardFailures, Event.failed]
  case statusOther pre req resp σ1 σ2 hq hp h2 hs200 hs404 hs403 =>
    obtain ⟨p1, p2, p3, p4, p5, p6, p7⟩ := (prepared_facts hp)
    refine ⟨_, rfl, ?_⟩
    simp [RetFacts, sentGets, refreshCalls, refreshResults, sentGets_append,
      refreshCalls_append, refreshResults_append, p1, p3, p4, p7, status_msg_ne]

/-- The three ways an invocation of `FetchURL` can go: the first pass returns;
the first pass goes on and the second returns; or both go on and line 84
returns the exhausted-retries error. -/
theorem FetchURL_cases {σ δ : Type} (w : World σ δ) (needauth : Bool) (url : String) (r : δ)
    (σ0 : σ) :
    (∃ d, (FetchURL w needauth url r σ0).2.2.trace = d
        ∧ RetFacts d (FetchURL w needauth url r σ0).1)
    ∨ (∃ d1 d2, (FetchURL w needauth url r σ0).2.2.trace = d1 ++ d2
        ∧ NextFacts needauth d1 ∧ RetFacts d2 (FetchURL w needauth url r σ0).1)
    ∨ (∃ d1 d2, (FetchURL w needauth url r σ0).2.2.trace = d1 ++ d2
        ∧ NextFacts needauth d1 ∧ NextFacts needauth d2
        ∧ (FetchURL w needauth url r σ0).1 = some (.errorf "Hit end of loop")) := by
  unfold FetchURL
  simp only [fetchLoop]
  have h1 := attemptRun_facts (attempt_run w needauth url r ⟨σ0, []⟩)
  generalize attempt w needauth url r ⟨σ0, []⟩ = st1 at h1 ⊢
  obtain ⟨d1, ht1, hf1⟩ := h1
  cases st1 with
  | ret err r1 s1 =>
    left
    exact ⟨d1, by simpa [Step.run] using ht1, hf1⟩
  | next r1 s1 =>
    right
    dsimp only
    have h2 := attemptRun_facts (attempt_run w needauth url r1 s1)
    generalize attempt w needauth url r1 s1 = st2 at h2 ⊢
    obtain ⟨d2, ht2, hf2⟩ := h2
    have hs1 : s1.trace = d1 := by simpa [Step.run] using ht1
    cases st2 with
    | ret err r2 s2 =>
      left
      exact ⟨d1, d2, by simpa [Step.run, hs1] using ht2, hf1, hf2⟩
    | next r2 s2 =>
      right
      exact ⟨d1, d2, by simpa [Step.run, hs1] using ht2, hf1, hf2, rfl⟩

/-- In one pass every answered GET was sent, and a refresh happens only after
a failed token read (no GET) or after a 403. -/
theorem attemptRun_statuses {σ δ : Type} {w : World σ δ} {needauth : Bool} {url : String}
    {r : δ} {s : Run σ} {st : Step σ δ} (h : AttemptRun w needauth url r s st)
    (d : List Event) (hd : st.run.trace = s.trace ++ d) :
    (getStatuses d).length ≤ (sentGets d).length
      ∧ (refreshCalls d = 1 → getStatuses d = [] ∨ getStatuses d = [403])
      ∧ (needauth = true → getStatuses d = [403] → refreshCalls d = 1) := by
  cases h
  case badURL m hq =>
    have : d = [] := by simpa [Step.run] using hd
    subst this
    simp [getStatuses, sentGets, refreshCalls]
  case missRefreshFailed m e dr σ1 σ2 hq hn h1 hr =>
    obtain ⟨f1, f2, f3, f4, f5, f6, f7⟩ := (refreshRun_facts hr)
    have := List.append_cancel_left hd
    subst this
    simp [getStatuses, sentGets, refreshCalls, getStatuses_append, sentGets_append,
      refreshCalls_append, f1, f2, f3]
  case missRefreshed m dr σ1 σ2 hq hn h1 hr =>
    obtain ⟨f1, f2, f3, f4, f5, f6, f7⟩ := (refreshRun_facts hr)
    have := List.append_cancel_left hd
    subst this
    simp [getStatuses, sentGets, refreshCalls, getStatuses_append, sentGets_append,
      refreshCalls_append, f1, f2, f3]
  case sendFailed pre req m σ1 σ2 hq hp h2 =>
    obtain ⟨p1, p2, p3, p4, p5, p6, p7⟩ := (prepared_facts hp)
    have := List.append_cancel_left hd
    subst this
    simp_all [getStatuses, sentGets, refreshCalls, getStatuses_append, sentGets_append,
      refreshCalls_append]
  case status200 pre req resp σ1 σ2 hq hp h2 hs =>
    obtain ⟨p1, p2, p3, p4, p5, p6, p7⟩ := (prepared_facts hp)
    have := List.append_cancel_left hd
    subst this
    simp_all [getStatuses, sentGets, refreshCalls, getStatuses_append, sentGets_append,
      refreshCalls_append]
  case status404 pre req resp σ1 σ2 hq hp h2 hs =>
    obtain ⟨p1, p2, p3, p4, p5, p6, p7⟩ := (prepared_facts hp)
    have := List.append_cancel_left hd
    subst this
    simp_all [getStatuses, sentGets, refreshCalls, getStatuses_append, sentGets_append,
      refreshCalls_append]
  case status403Anonymous pre req resp σ1 σ2 hq hp h2 hs hn =>
    obtain ⟨p1, p2, p3, p4, p5, p6, p7⟩ := (prepared_facts hp)
    have := List.append_cancel_left hd
    subst this
    simp_all [getStatuses, sentGets, refreshCalls, getStatuses_append, sentGets_append,
      refreshCalls_append]
  case status403RefreshFailed pre req resp e dr σ1 σ2 σ3 hq hp h2 hs hn hr =>
    obtain ⟨p1, p2, p3, p4, p5, p6, p7⟩ := (prepared_facts hp)
    obtain ⟨f1, f2, f3, f4, f5, f6, f7⟩ := (refreshRun_facts hr)
    have := List.append_cancel_left hd
    subst this
    simp [getStatuses, sentGets, refreshCalls, getStatuses_append, sentGets_append,
      refreshCalls_append, p1, p2, p3, p7, f1, f2, f3, hs]
  case status403Refreshed pre req resp dr σ1 σ2 σ3 hq hp h2 hs hn hr =>
    obtain ⟨p1, p2, p3, p4, p5, p6, p7⟩ := (prepared_facts hp)
    obtain ⟨f1, f2, f3, f4, f5, f6, f7⟩ := (refreshRun_facts hr)
    have := List.append_cancel_left hd
    subst this
    simp [getStatuses, sentGets, refreshCalls, getStatuses_append, sentGets_append,
      refreshCalls_append, p1, p2, p3, p7, f1, f2, f3, hs]
  case statusOther pre req resp σ1 σ2 hq hp h2 hs200 hs404 hs403 =>
    obtain ⟨p1, p2, p3, p4, p5, p6, p7⟩ := (prepared_facts hp)
    have := List.append_cancel_left hd
    subst this
    simp_all [getStatuses, sentGets, refreshCalls, getStatuses_append, sentGets_append,
      refreshCalls_append]

/-! ## Claims about `FetchURL` that hold in every world -/

/-- C1: for every needauth flag, URL and behaviour of the store and the
transport, one invocation of `FetchURL` sends at most 2 GET requests to the
resource endpoint and invokes `refreshAuth` at most 2 times. -/
theorem FetchURL_at_most_two {σ δ : Type} (w : World σ δ) (needauth : Bool) (url : String)
    (r : δ) (σ0 : σ) :
    (sentGets (FetchURL w needauth url r σ0).2.2.trace).length ≤ 2
      ∧ refreshCalls (FetchURL w needauth url r σ0).2.2.trace ≤ 2 := by
  rcases FetchURL_cases w needauth url r σ0 with
    ⟨d, ht, hf⟩ | ⟨d1, d2, ht, hn, hf⟩ | ⟨d1, d2, ht, hn1, hn2, _⟩
  · rw [ht]
    obtain ⟨a, b, _⟩ := hf
    omega
  · rw [ht, sentGets_append, refreshCalls_append, List.length_append]
    obtain ⟨a, b, _⟩ := hf
    obtain ⟨a1, b1, _⟩ := hn
    omega
  · rw [ht, sentGets_append, refreshCalls_append, List.length_append]
    obtain ⟨a1, b1, _⟩ := hn1
    obtain ⟨a2, b2, _⟩ := hn2
    omega

/-- C10: `FetchURL` returns the exhausted-retries error ("Hit end of loop")
if and only if needauth is true and `refreshAuth` was invoked exactly twice
during the invocation and returned nil both times; with needauth=false it is
never returned; and whenever it is returned the trace ends with the return of
a successful refresh, so no request was sent after it. -/
theorem FetchURL_hit_end_iff {σ δ : Type} (w : World σ δ) (needauth : Bool) (url : String)
    (r : δ) (σ0 : σ) :
    ((FetchURL w needauth url r σ0).1 = some (.errorf "Hit end of loop")
        ↔ needauth = true
          ∧ refreshCalls (FetchURL w needauth url r σ0).2.2.trace = 2
          ∧ refreshResults (FetchURL w needauth url r σ0).2.2.trace = [none, none])
      ∧ (needauth = false → (FetchURL w needauth url r σ0).1 ≠ some (.errorf "Hit end of loop"))
      ∧ ((FetchURL w needauth url r σ0).1 = some (.errorf "Hit end of loop")
          → ∃ p, (FetchURL w needauth url r σ0).2.2.trace = p ++ [Event.refreshExit none]) := by
  rcases FetchURL_cases w needauth url r σ0 with
    ⟨d, ht, hf⟩ | ⟨d1, d2, ht, hn, hf⟩ | ⟨d1, d2, ht, hn1, hn2, he⟩
  · obtain ⟨_, b, c, _, e, _⟩ := hf
    rw [ht]
    refine ⟨⟨fun h => absurd h e, ?_⟩, fun _ => e, fun h => absurd h e⟩
    rintro ⟨_, h2, _⟩
    omega
  · obtain ⟨_, b, c, d, e, _⟩ := hf
    obtain ⟨_, b1, c1, _⟩ := hn
    rw [ht]
    refine ⟨⟨fun h => absurd h e, ?_⟩, fun _ => e, fun h => absurd h e⟩
    rintro ⟨_, _, h3⟩
    rw [refreshResults_append, c1] at h3
    exact absurd (by simpa using h3) d
  · obtain ⟨_, b1, c1, n1, _, _⟩ := hn1
    obtain ⟨_, b2, c2, _, _, p, hp⟩ := hn2
    rw [ht, he]
    refine ⟨⟨fun _ => ⟨n1, ?_, ?_⟩, fun _ => rfl⟩, ?_, fun _ => ⟨d1 ++ p, ?_⟩⟩
    · rw [refreshCalls_append, b1, b2]
    · rw [refreshResults_append, c1, c2]
      rfl
    · intro h
      rw [n1] at h
      cases h
    · rw [hp, List.append_assoc]

/-! ## Error propagation -/

/-- C9 (as amended): in every invocation of `FetchURL`, a failed store
operation, transport call or JSON decode other than a failed read of the
access token makes the invocation return an error; `FetchURL` returns nil only
when the last status the resource endpoint answered is 200 or 404; and every
failed call inside an invocation of `refreshAuth` makes it return an error. -/
theorem failures_are_returned {σ δ : Type} (w : World σ δ) (needauth : Bool) (url : String)
    (r : δ) (σ0 : σ) :
    (hardFailures (FetchURL w needauth url r σ0).2.2.trace ≠ []
        → (FetchURL w needauth url r σ0).1 ≠ none)
      ∧ ((FetchURL w needauth url r σ0).1 = none
        → (getStatuses (FetchURL w needauth url r σ0).2.2.trace).getLast? = some 200
          ∨ (getStatuses (FetchURL w needauth url r σ0).2.2.trace).getLast? = some 404)
      ∧ (failures (refreshAuth w ⟨σ0, []⟩).2.trace ≠ [] → (refreshAuth w ⟨σ0, []⟩).1 ≠ none) := by
  refine ⟨?_, ?_, ?_⟩
  · rcases FetchURL_cases w needauth url r σ0 with
      ⟨d, ht, hf⟩ | ⟨d1, d2, ht, hn, hf⟩ | ⟨d1, d2, ht, hn1, hn2, he⟩
    · intro h hnone
      exact h (by rw [ht]; exact (hf.2.2.2.2.2 hnone).1)
    · intro h hnone
      apply h
      rw [ht, hardFailures_append, hn.2.2.2.2.1, (hf.2.2.2.2.2 hnone).1]
      rfl
    · intro _
      rw [he]
      simp
  · rcases FetchURL_cases w needauth url r σ0 with
      ⟨d, ht, hf⟩ | ⟨d1, d2, ht, hn, hf⟩ | ⟨d1, d2, ht, hn1, hn2, he⟩
    · intro hnone
      rw [ht]
      exact (hf.2.2.2.2.2 hnone).2
    · intro hnone
      rw [ht, getStatuses_append, List.getLast?_append]
      rcases (hf.2.2.2.2.2 hnone).2 with h | h
      · left
        rw [h]
        rfl
      · right
        rw [h]
        rfl
    · intro hnone
      rw [he] at hnone
      cases hnone
  · obtain ⟨d, res, σ1, he, hr⟩ := refreshAuth_run w ⟨σ0, []⟩
    rw [he]
    intro h hnone
    apply h
    have hf := (refreshRun_facts hr).2.2.2.2.2.1 hnone
    simp only [failures] at hf ⊢
    simp [hf, Event.failed]

/-- C9 (as amended) at a concrete input: the transport fails, and `FetchURL` returns an error. -/
theorem failures_are_returned_witness :
    (FetchURL sampleWorld true "u" "" ⟨warmStore, []⟩).1 ≠ none :=
  (failures_are_returned sampleWorld true "u" "" ⟨warmStore, []⟩).1 (by decide)

/-- C2: for every well-formed URL and every response of the transport,
`FetchURL` with needauth=false sends exactly one GET request, whose only
header is the User-Agent (so no Authorization header), reads nothing from the
store and never invokes `refreshAuth`; it returns the result of decoding the
body into the destination on status 200, nil with the destination unchanged
on status 404, and an error naming the status text on every other status,
403 included. -/
theorem FetchURL_without_auth {σ δ : Type} (w : World σ δ) (url : String) (r : δ) (σ0 σ1 : σ)
    (resp : Response)
    (hq : w.newRequest "GET" url = none)
    (h : w.send (Request.mk "GET" url [userAgent] none) σ0 = (.ok resp, σ1)) :
    sentGets (FetchURL w false url r σ0).2.2.trace = [Request.mk "GET" url [userAgent] none]
      ∧ storeReads (FetchURL w false url r σ0).2.2.trace = []
      ∧ mutations (FetchURL w false url r σ0).2.2.trace = []
      ∧ refreshCalls (FetchURL w false url r σ0).2.2.trace = 0
      ∧ (resp.StatusCode = 200 →
          (FetchURL w false url r σ0).1 = (w.decodeInto resp.Body r).1.map GoError.ext
            ∧ (FetchURL w false url r σ0).2.1 = (w.decodeInto resp.Body r).2)
      ∧ (resp.StatusCode = 404 →
          (FetchURL w false url r σ0).1 = none ∧ (FetchURL w false url r σ0).2.1 = r)
      ∧ (resp.StatusCode ≠ 200 → resp.StatusCode ≠ 404 →
          (FetchURL w false url r σ0).1
              = some (.errorf ("Error talking to esi: " ++ resp.Status))
            ∧ (FetchURL w false url r σ0).2.1 = r) := by
  by_cases hs : resp.StatusCode = 200
  · simp [FetchURL, fetchLoop, attempt, respond, clientDo, Run.log, hq, h, hs, sentGets,
      storeReads, mutations, refreshCalls]
  by_cases hs4 : resp.StatusCode = 404
  · simp [FetchURL, fetchLoop, attempt, respond, clientDo, hq, h, hs4, sentGets,
      storeReads, mutations, refreshCalls]
  by_cases hs3 : resp.StatusCode = 403
  · simp [FetchURL, fetchLoop, attempt, respond, clientDo, hq, h, hs3, sentGets,
      storeReads, mutations, refreshCalls]
  · simp [FetchURL, fetchLoop, attempt, respond, clientDo, hq, h, hs, hs4, hs3, sentGets,
      storeReads, mutations, refreshCalls]

/-- C2 at a concrete input: a 403 answer to an unauthenticated fetch. -/
theorem FetchURL_without_auth_witness :
    (FetchURL sampleWorld false "u" "" ⟨coldStore, [reply 403 "403 Forbidden" ""]⟩).1
        = some (.errorf "Error talking to esi: 403 Forbidden")
      ∧ refreshCalls
          (FetchURL sampleWorld false "u" "" ⟨coldStore, [reply 403 "403 Forbidden" ""]⟩).2.2.trace
        = 0 :=
  have h := FetchURL_without_auth sampleWorld "u" "" ⟨coldStore, [reply 403 "403 Forbidden" ""]⟩
    ⟨coldStore, []⟩ ⟨403, "403 Forbidden", ""⟩ rfl rfl
  ⟨(h.2.2.2.2.2.2 (by decide) (by decide)).1, h.2.2.2.1⟩

/-! ## The second pass -/

/-- What the last pass of the loop adds to the trace. -/
theorem fetchLoop_one {σ δ : Type} (w : World σ δ) (needauth : Bool) (url : String) (r : δ)
    (s : Run σ) :
    ∃ d, (fetchLoop w needauth url 1 r s).2.2.trace = s.trace ++ d
      ∧ (sentGets d).length ≤ 1 ∧ refreshCalls d ≤ 1
      ∧ (getStatuses d).length ≤ (sentGets d).length
      ∧ (refreshCalls d = 1 → getStatuses d = [] ∨ getStatuses d = [403])
      ∧ (needauth = true → getStatuses d = [403] → refreshCalls d = 1) := by
  simp only [fetchLoop]
  have h := attempt_run w needauth url r s
  obtain ⟨d, ht, hf⟩ := (attemptRun_facts h)
  have hst := attemptRun_statuses h d ht
  generalize attempt w needauth url r s = st at ht hf hst ⊢
  cases st with
  | ret err r1 s1 =>
    exact ⟨d, by simpa [Step.run] using ht, hf.1, hf.2.1, hst⟩
  | next r1 s1 =>
    exact ⟨d, by simpa [Step.run] using ht, hf.1, by rw [hf.2.1], hst⟩

/-! ## Claims about particular paths of `FetchURL` -/

/-- C4: in every invocation of `FetchURL` with needauth=true (and a
well-formed URL) in which the first read of the access token fails,
`refreshAuth` is invoked right after the failed read, before any GET request;
and if that `refreshAuth` returns the error `e`, `FetchURL` returns exactly
`e` and has sent no GET request. -/
theorem FetchURL_token_miss {σ δ : Type} (w : World σ δ) (url : String) (r : δ) (σ0 σ1 : σ)
    (m : String)
    (hq : w.newRequest "GET" url = none)
    (h1 : w.get accessKey σ0 = (.error m, σ1)) :
    (∃ rest, (FetchURL w true url r σ0).2.2.trace
        = Event.get accessKey (.error m) :: Event.refreshEnter :: rest)
      ∧ ∀ e, (refreshResults (FetchURL w true url r σ0).2.2.trace).head? = some (some e) →
          (FetchURL w true url r σ0).1 = some e
            ∧ sentGets (FetchURL w true url r σ0).2.2.trace = [] := by
  have ha : attempt w true url r ⟨σ0, []⟩
      = match refreshAuth w ⟨σ1, [Event.get accessKey (.error m)]⟩ with
        | (some rerr, s2) => .ret (some rerr) r s2
        | (none, s2) => .next r s2 := by
    simp [attempt, hq, getAccessToken, redisGet, h1]
  obtain ⟨dr, res, σ2, he, hr⟩ := refreshAuth_run w ⟨σ1, [Event.get accessKey (.error m)]⟩
  obtain ⟨f1, f2, f3, f4, f5, f6, f7⟩ := (refreshRun_facts hr)
  rw [he] at ha
  cases res with
  | some e =>
    have hF : FetchURL w true url r σ0 = (some e, r,
        ⟨σ2, [Event.get accessKey (.error m)] ++ Event.refreshEnter
          :: (dr ++ [Event.refreshExit (some e)])⟩) := by
      simp [FetchURL, fetchLoop, ha]
    rw [hF]
    refine ⟨⟨_, rfl⟩, ?_⟩
    intro e2 h2
    simp [refreshResults, refreshResults_append, f4] at h2
    simp [h2, sentGets, sentGets_append, f1]
  | none =>
    have hF : FetchURL w true url r σ0 = fetchLoop w true url 1 r
        ⟨σ2, [Event.get accessKey (.error m)] ++ Event.refreshEnter
          :: (dr ++ [Event.refreshExit none])⟩ := by
      simp [FetchURL, fetchLoop, ha]
    obtain ⟨d2, ht2, _⟩ := fetchLoop_one w true url r
        ⟨σ2, [Event.get accessKey (.error m)] ++ Event.refreshEnter
          :: (dr ++ [Event.refreshExit none])⟩
    rw [hF, ht2]
    refine ⟨⟨_, rfl⟩, ?_⟩
    intro e2 h2
    simp [refreshResults, refreshResults_append, f4] at h2

/-- C4 at a concrete input: no access token and no refresh token in the store. -/
theorem FetchURL_token_miss_witness :
    (FetchURL sampleWorld true "u" "" ⟨storeOf [], []⟩).1 = some (.ext "redis: nil")
      ∧ sentGets (FetchURL sampleWorld true "u" "" ⟨storeOf [], []⟩).2.2.trace = [] :=
  (FetchURL_token_miss sampleWorld "u" "" ⟨storeOf [], []⟩ ⟨storeOf [], []⟩ "redis: nil"
    rfl rfl).2 (.ext "redis: nil") (by decide)

/-- The first pass when the access token is read successfully: the request
with the Bearer header goes to `respond`. -/
theorem attempt_bearer {σ δ : Type} (w : World σ δ) (url : String) (r : δ) (σ0 σ1 : σ)
    (t : String)
    (hq : w.newRequest "GET" url = none)
    (h1 : w.get accessKey σ0 = (.ok t, σ1)) :
    attempt w true url r ⟨σ0, []⟩
      = respond w true (getRequest url [("Authorization", "Bearer " ++ t)]) r
          ⟨σ1, [Event.get accessKey (.ok t)]⟩ := by
  simp [attempt, hq, getAccessToken, redisGet, h1, getRequest]

/-- The first pass when the token is read and the request is answered 403. -/
theorem forbidden_first_pass {σ δ : Type} (w : World σ δ) (url : String) (r : δ)
    (σ0 σ1 σ2 : σ) (t : String) (resp : Response)
    (hq : w.newRequest "GET" url = none)
    (h1 : w.get accessKey σ0 = (.ok t, σ1))
    (h2 : w.send (getRequest url [("Authorization", "Bearer " ++ t)]) σ1 = (.ok resp, σ2))
    (hs : resp.StatusCode = 403) :
    ∃ dr, sentGets dr = [] ∧ getStatuses dr = [] ∧ refreshCalls dr = 0 ∧ refreshResults dr = []
      ∧ ((∃ e, FetchURL w true url r σ0 = (some e, r,
            ⟨(FetchURL w true url r σ0).2.2.world,
              Event.get accessKey (.ok t)
                :: Event.send (getRequest url [("Authorization", "Bearer " ++ t)]) (.ok resp)
                :: Event.refreshEnter :: (dr ++ [Event.refreshExit (some e)])⟩))
        ∨ (∃ d2, (FetchURL w true url r σ0).2.2.trace
              = Event.get accessKey (.ok t)
                :: Event.send (getRequest url [("Authorization", "Bearer " ++ t)]) (.ok resp)
                :: Event.refreshEnter :: (dr ++ Event.refreshExit none :: d2)
            ∧ (sentGets d2).length ≤ 1 ∧ refreshCalls d2 ≤ 1
            ∧ (getStatuses d2).length ≤ (sentGets d2).length
            ∧ (refreshCalls d2 = 1 → getStatuses d2 = [] ∨ getStatuses d2 = [403])
            ∧ (getStatuses d2 = [403] → refreshCalls d2 = 1))) := by
  have ha := attempt_bearer w url r σ0 σ1 t hq h1
  obtain ⟨dr, res, σ3, he, hr⟩ := refreshAuth_run w
    ⟨σ2, [Event.get accessKey (.ok t),
      Event.send (getRequest url [("Authorization", "Bearer " ++ t)]) (.ok resp)]⟩
  obtain ⟨f1, f2, f3, f4, f5, f6, f7⟩ := (refreshRun_facts hr)
  have hb : attempt w true url r ⟨σ0, []⟩
      = match (res, (⟨σ3, [Event.get accessKey (.ok t),
            Event.send (getRequest url [("Authorization", "Bearer " ++ t)]) (.ok resp)]
            ++ Event.refreshEnter :: (dr ++ [Event.refreshExit res])⟩ : Run σ)) with
        | (some err, s2) => .ret (some err) r s2
        | (none, s2) => .next r s2 := by
    rw [ha, ← he]
    simp [respond, clientDo, h2, hs]
  refine ⟨dr, f1, f2, f3, f4, ?_⟩
  cases res with
  | some e =>
    left
    refine ⟨e, ?_⟩
    simp [FetchURL, fetchLoop, hb]
  | none =>
    right
    have hF : FetchURL w true url r σ0 = fetchLoop w true url 1 r
        ⟨σ3, [Event.get accessKey (.ok t),
            Event.send (getRequest url [("Authorization", "Bearer " ++ t)]) (.ok resp)]
            ++ Event.refreshEnter :: (dr ++ [Event.refreshExit none])⟩ := by
      simp [FetchURL, fetchLoop, hb]
    obtain ⟨d2, ht2, g1, g2, g3, g4, g5⟩ := fetchLoop_one w true url r
        ⟨σ3, [Event.get accessKey (.ok t),
            Event.send (getRequest url [("Authorization", "Bearer " ++ t)]) (.ok resp)]
            ++ Event.refreshEnter :: (dr ++ [Event.refreshExit none])⟩
    refine ⟨d2, ?_, g1, g2, g3, g4, g5 rfl⟩
    rw [hF, ht2]
    simp

/-- C3 (as amended): in every invocation of `FetchURL` with needauth=true and
a well-formed URL in which the first read of the access token returns `t`,
the first request sent is a GET carrying `Authorization: Bearer t` next to the
User-Agent, and it is the only GET request of the invocation whenever the
resource endpoint does not answer it with status 403. -/
theorem FetchURL_bearer {σ δ : Type} (w : World σ δ) (url : String) (r : δ) (σ0 σ1 : σ)
    (t : String)
    (hq : w.newRequest "GET" url = none)
    (h1 : w.get accessKey σ0 = (.ok t, σ1)) :
    (sentGets (FetchURL w true url r σ0).2.2.trace).head?
        = some (Request.mk "GET" url [userAgent, ("Authorization", "Bearer " ++ t)] none)
      ∧ ((∀ resp, (w.send (Request.mk "GET" url
              [userAgent, ("Authorization", "Bearer " ++ t)] none) σ1).1 = .ok resp
            → resp.StatusCode ≠ 403)
          → sentGets (FetchURL w true url r σ0).2.2.trace
              = [Request.mk "GET" url [userAgent, ("Authorization", "Bearer " ++ t)] none]) := by
  have ha := attempt_bearer w url r σ0 σ1 t hq h1
  rcases h2 : w.send (Request.mk "GET" url [userAgent, ("Authorization", "Bearer " ++ t)] none) σ1
    with ⟨m | resp, σ2⟩
  · simp [FetchURL, fetchLoop, ha, respond, clientDo, h2, sentGets, getRequest]
  by_cases hs : resp.StatusCode = 200
  · simp [FetchURL, fetchLoop, ha, respond, clientDo, h2, hs, sentGets, getRequest, Run.log]
  by_cases hs4 : resp.StatusCode = 404
  · simp [FetchURL, fetchLoop, ha, respond, clientDo, h2, hs4, sentGets, getRequest]
  by_cases hs3 : resp.StatusCode = 403
  · obtain ⟨dr, f1, _, _, _, hc⟩ := forbidden_first_pass w url r σ0 σ1 σ2 t resp hq h1 h2 hs3
    refine ⟨?_, fun hall => absurd hs3 (hall resp rfl)⟩
    rcases hc with ⟨e, hF⟩ | ⟨d2, ht, _⟩
    · rw [hF]
      simp [sentGets, getRequest]
    · rw [ht]
      simp [sentGets, getRequest]
  · simp [FetchURL, fetchLoop, ha, respond, clientDo, h2, hs, hs4, hs3, sentGets, getRequest]

/-- C3 (as amended) at a concrete input: the token `"T"` is stored and the answer is 200. -/
theorem FetchURL_bearer_witness :
    sentGets (FetchURL sampleWorld true "u" "" ⟨warmStore, [reply 200 "200 OK" "body"]⟩).2.2.trace
      = [Request.mk "GET" "u" [userAgent, ("Authorization", "Bearer T")] none] :=
  (FetchURL_bearer sampleWorld "u" "" ⟨warmStore, [reply 200 "200 OK" "body"]⟩
    ⟨warmStore, [reply 200 "200 OK" "body"]⟩ "T" rfl rfl).2
    (fun resp h => by
      have h2 : (Except.ok ⟨200, "200 OK", "body"⟩ : Except String Response) = .ok resp := h
      cases h2
      decide)

theorem accessMisses_append (a b : List Event) :
    accessMisses (a ++ b) = accessMisses a + accessMisses b := by
  simp [accessMisses]

/-- Inside `refreshAuth` the access token is not read. -/
theorem refreshRun_no_miss {σ δ : Type} {w : World σ δ} {σ0 σ1 : σ} {d : List Event}
    {res : Option GoError} (h : RefreshRun w σ0 d res σ1) : accessMisses d = 0 := by
  cases h <;>
    simp [accessMisses, Event.accessMiss, accessKey, refreshKey, apiauthKey]

/-- A prepared request had no failed token read before it. -/
theorem prepared_no_miss {σ δ : Type} {w : World σ δ} {needauth : Bool} {url : String}
    {σ0 σ1 : σ} {pre : List Event} {req : Request}
    (h : Prepared w needauth url σ0 pre req σ1) : accessMisses pre = 0 := by
  cases h <;> simp [accessMisses, Event.accessMiss]

/-- In one pass with needauth=true there is one refresh for each 403 answer
and one for each failed read of the access token. -/
theorem attemptRun_refresh_count {σ δ : Type} {w : World σ δ} {url : String}
    {r : δ} {s : Run σ} {st : Step σ δ} (h : AttemptRun w true url r s st)
    (d : List Event) (hd : st.run.trace = s.trace ++ d) :
    refreshCalls d = (getStatuses d).count 403 + accessMisses d := by
  cases h
  case badURL m hq =>
    have : d = [] := by simpa [Step.run] using hd
    subst this
    simp [getStatuses, refreshCalls, accessMisses]
  case missRefreshFailed m e dr σ1 σ2 hq hn h1 hr =>
    obtain ⟨f1, f2, f3, f4, f5, f6, f7⟩ := (refreshRun_facts hr)
    have f8 := refreshRun_no_miss hr
    have := List.append_cancel_left hd
    subst this
    have hc : ∀ t, accessMisses (Event.get accessKey (.error m) :: Event.refreshEnter :: t)
        = 1 + accessMisses t := by
      intro t
      simp [accessMisses, Event.accessMiss]
      omega
    rw [hc, accessMisses_append, f8]
    simp [getStatuses, refreshCalls, getStatuses_append, refreshCalls_append, f2, f3,
      accessMisses, Event.accessMiss]
  case missRefreshed m dr σ1 σ2 hq hn h1 hr =>
    obtain ⟨f1, f2, f3, f4, f5, f6, f7⟩ := (refreshRun_facts hr)
    have f8 := refreshRun_no_miss hr
    have := List.append_cancel_left hd
    subst this
    have hc : ∀ t, accessMisses (Event.get accessKey (.error m) :: Event.refreshEnter :: t)
        = 1 + accessMisses t := by
      intro t
      simp [accessMisses, Event.accessMiss]
      omega
    rw [hc, accessMisses_append, f8]
    simp [getStatuses, refreshCalls, getStatuses_append, refreshCalls_append, f2, f3,
      accessMisses, Event.accessMiss]
  case sendFailed pre req m σ1 σ2 hq hp h2 =>
    obtain ⟨p1, p2, p3, p4, p5, p6, p7⟩ := (prepared_facts hp)
    have p8 := prepared_no_miss hp
    have := List.append_cancel_left hd
    subst this
    rw [accessMisses_append, p8]
    simp [getStatuses, refreshCalls, getStatuses_append, refreshCalls_append, p2, p3,
      accessMisses, Event.accessMiss]
  case status200 pre req resp σ1 σ2 hq hp h2 hs =>
    obtain ⟨p1, p2, p3, p4, p5, p6, p7⟩ := (prepared_facts hp)
    have p8 := prepared_no_miss hp
    have := List.append_cancel_left hd
    subst this
    rw [accessMisses_append, p8]
    simp [getStatuses, refreshCalls, getStatuses_append, refreshCalls_append, p2, p3, p7, hs,
      accessMisses, Event.accessMiss]
  case status404 pre req resp σ1 σ2 hq hp h2 hs =>
    obtain ⟨p1, p2, p3, p4, p5, p6, p7⟩ := (prepared_facts hp)
    have p8 := prepared_no_miss hp
    have := List.append_cancel_left hd
    subst this
    rw [accessMisses_append, p8]
    simp [getStatuses, refreshCalls, getStatuses_append, refreshCalls_append, p2, p3, p7, hs,
      accessMisses, Event.accessMiss]
  case status403Anonymous pre req resp σ1 σ2 hq hp h2 hs hn =>
    cases hn
  case status403RefreshFailed pre req resp e dr σ1 σ2 σ3 hq hp h2 hs hn hr =>
    obtain ⟨p1, p2, p3, p4, p5, p6, p7⟩ := (prepared_facts hp)
    obtain ⟨f1, f2, f3, f4, f5, f6, f7⟩ := (refreshRun_facts hr)
    have p8 := prepared_no_miss hp
    have f8 := refreshRun_no_miss hr
    have := List.append_cancel_left hd
    subst this
    have hc : ∀ t, accessMisses (Event.send req (.ok resp) :: Event.refreshEnter :: t)
        = accessMisses t := by
      intro t
      simp [accessMisses, Event.accessMiss]
    rw [accessMisses_append, p8, hc, accessMisses_append, f8]
    simp [getStatuses, refreshCalls, getStatuses_append, refreshCalls_append, p2, p3, p7, f2, f3,
      hs, accessMisses, Event.accessMiss]
  case status403Refreshed pre req resp dr σ1 σ2 σ3 hq hp h2 hs hn hr =>
    obtain ⟨p1, p2, p3, p4, p5, p6, p7⟩ := (prepared_facts hp)
    obtain ⟨f1, f2, f3, f4, f5, f6, f7⟩ := (refreshRun_facts hr)
    have p8 := prepared_no_miss hp
    have f8 := refreshRun_no_miss hr
    have := List.append_cancel_left hd
    subst this
    have hc : ∀ t, accessMisses (Event.send req (.ok resp) :: Event.refreshEnter :: t)
        = accessMisses t := by
      intro t
      simp [accessMisses, Event.accessMiss]
    rw [accessMisses_append, p8, hc, accessMisses_append, f8]
    simp [getStatuses, refreshCalls, getStatuses_append, refreshCalls_append, p2, p3, p7, f2, f3,
      hs, accessMisses, Event.accessMiss]
  case statusOther pre req resp σ1 σ2 hq hp h2 hs200 hs404 hs403 =>
    obtain ⟨p1, p2, p3, p4, p5, p6, p7⟩ := (prepared_facts hp)
    have p8 := prepared_no_miss hp
    have := List.append_cancel_left hd
    subst this
    rw [accessMisses_append, p8]
    simp [getStatuses, refreshCalls, getStatuses_append, refreshCalls_append, p2, p3, p7, hs403,
      accessMisses, Event.accessMiss, List.count_cons]

/-- In any number of passes with needauth=true there is one refresh for each
403 answer and one for each failed read of the access token. -/
theorem fetchLoop_refresh_count {σ δ : Type} (w : World σ δ) (url : String) (n : Nat) :
    ∀ (r : δ) (s : Run σ), ∃ d, (fetchLoop w true url n r s).2.2.trace = s.trace ++ d
      ∧ refreshCalls d = (getStatuses d).count 403 + accessMisses d := by
  induction n with
  | zero =>
    intro r s
    exact ⟨[], by simp [fetchLoop], by simp [refreshCalls, getStatuses, accessMisses]⟩
  | succ n ih =>
    intro r s
    simp only [fetchLoop]
    have h := attempt_run w true url r s
    obtain ⟨d1, ht1, _⟩ := attemptRun_facts h
    have hc1 := attemptRun_refresh_count h d1 ht1
    generalize attempt w true url r s = st at ht1 ⊢
    cases st with
    | ret err r1 s1 =>
      exact ⟨d1, by simpa [Step.run] using ht1, hc1⟩
    | next r1 s1 =>
      obtain ⟨d2, ht2, hc2⟩ := ih r1 s1
      have hs1 : s1.trace = s.trace ++ d1 := by simpa [Step.run] using ht1
      refine ⟨d1 ++ d2, ?_, ?_⟩
      · dsimp only
        rw [ht2, hs1, List.append_assoc]
      · rw [refreshCalls_append, getStatuses_append, accessMisses_append, List.count_append,
          hc1, hc2]
        omega

/-- The last pass of the loop leaves the trace of its one pass. -/
theorem fetchLoop_one_trace {σ δ : Type} (w : World σ δ) (needauth : Bool) (url : String)
    (r : δ) (s : Run σ) :
    (fetchLoop w needauth url 1 r s).2.2.trace = (attempt w needauth url r s).run.trace := by
  simp only [fetchLoop]
  cases attempt w needauth url r s <;> rfl

/-- A pass in which the access token is read successfully: the request with the
Bearer header goes to `respond`. -/
theorem attempt_bearer_at {σ δ : Type} (w : World σ δ) (url : String) (r : δ) (s : Run σ)
    (σ1 : σ) (t : String)
    (hq : w.newRequest "GET" url = none)
    (h1 : w.get accessKey s.world = (.ok t, σ1)) :
    attempt w true url r s
      = respond w true (getRequest url [("Authorization", "Bearer " ++ t)]) r
          ⟨σ1, s.trace ++ [Event.get accessKey (.ok t)]⟩ := by
  simp [attempt, hq, getAccessToken, redisGet, h1, getRequest]

/-- Lines 59-82 send the GET request they are given exactly once. -/
theorem respond_sends_once {σ δ : Type} (w : World σ δ) (needauth : Bool) (req : Request)
    (r : δ) (s : Run σ) (hm : req.method = "GET") :
    ∃ d, (respond w needauth req r s).run.trace = s.trace ++ d ∧ sentGets d = [req] := by
  rcases h2 : w.send req s.world with ⟨m | resp, σ2⟩
  · exact ⟨[Event.send req (.error m)], by simp [respond, clientDo, h2, Step.run],
      by simp [sentGets, hm]⟩
  by_cases hs : resp.StatusCode = 200
  · exact ⟨[Event.send req (.ok resp), Event.decode (w.decodeInto resp.Body r).1],
      by simp [respond, clientDo, h2, hs, Step.run, Run.log], by simp [sentGets, hm]⟩
  by_cases hs4 : resp.StatusCode = 404
  · exact ⟨[Event.send req (.ok resp)], by simp [respond, clientDo, h2, hs4, Step.run],
      by simp [sentGets, hm]⟩
  by_cases hs3 : resp.StatusCode = 403
  · cases needauth with
    | false =>
      exact ⟨[Event.send req (.ok resp)], by simp [respond, clientDo, h2, hs3, Step.run],
        by simp [sentGets, hm]⟩
    | true =>
      obtain ⟨dr, res, σ3, he, hr⟩ :=
        refreshAuth_run w ⟨σ2, s.trace ++ [Event.send req (.ok resp)]⟩
      obtain ⟨f1, _⟩ := refreshRun_facts hr
      refine ⟨Event.send req (.ok resp) :: Event.refreshEnter
        :: (dr ++ [Event.refreshExit res]), ?_, ?_⟩
      · cases res <;> simp [respond, clientDo, h2, hs3, he, Step.run]
      · simp [sentGets, sentGets_append, hm, f1]
  · exact ⟨[Event.send req (.ok resp)],
      by simp [respond, clientDo, h2, hs, hs4, hs3, Step.run], by simp [sentGets, hm]⟩

/-- C5 (as amended): in every invocation of `FetchURL` with needauth=true the
number of `refreshAuth` attempts equals the number of 403 answers of the
resource endpoint plus the number of failed reads of the access token.  When
the URL is well-formed, the first read of the access token succeeds and the
first GET request is answered 403, a `refreshAuth` attempt is made directly
after that answer; if that attempt returns an error, `FetchURL` returns it,
with exactly one attempt and one GET; if it succeeds and the access token is
then read successfully, the GET request is sent exactly once more after it,
carrying the token read then. -/
theorem FetchURL_forbidden {σ δ : Type} (w : World σ δ) (url : String) (r : δ) (σ0 : σ) :
    refreshCalls (FetchURL w true url r σ0).2.2.trace
        = (getStatuses (FetchURL w true url r σ0).2.2.trace).count 403
          + accessMisses (FetchURL w true url r σ0).2.2.trace
      ∧ ∀ (σ1 σ2 : σ) (t : String) (resp : Response),
          w.newRequest "GET" url = none →
          w.get accessKey σ0 = (.ok t, σ1) →
          w.send (Request.mk "GET" url [userAgent, ("Authorization", "Bearer " ++ t)] none) σ1
            = (.ok resp, σ2) →
          resp.StatusCode = 403 →
          (∃ rest, (FetchURL w true url r σ0).2.2.trace
              = Event.get accessKey (.ok t)
                :: Event.send (Request.mk "GET" url
                    [userAgent, ("Authorization", "Bearer " ++ t)] none) (.ok resp)
                :: Event.refreshEnter :: rest)
          ∧ (∀ (e : GoError) (s3 : Run σ),
              refreshAuth w ⟨σ2, [Event.get accessKey (.ok t),
                  Event.send (Request.mk "GET" url
                    [userAgent, ("Authorization", "Bearer " ++ t)] none) (.ok resp)]⟩
                = (some e, s3) →
              (FetchURL w true url r σ0).1 = some e
                ∧ refreshCalls (FetchURL w true url r σ0).2.2.trace = 1
                ∧ sentGets (FetchURL w true url r σ0).2.2.trace
                    = [Request.mk "GET" url
                        [userAgent, ("Authorization", "Bearer " ++ t)] none])
          ∧ (∀ (s3 : Run σ) (t2 : String) (σ4 : σ),
              refreshAuth w ⟨σ2, [Event.get accessKey (.ok t),
                  Event.send (Request.mk "GET" url
                    [userAgent, ("Authorization", "Bearer " ++ t)] none) (.ok resp)]⟩
                = (none, s3) →
              w.get accessKey s3.world = (.ok t2, σ4) →
              sentGets (FetchURL w true url r σ0).2.2.trace
                  = [Request.mk "GET" url [userAgent, ("Authorization", "Bearer " ++ t)] none,
                      Request.mk "GET" url [userAgent, ("Authorization", "Bearer " ++ t2)] none]
                ∧ ∃ dr d2, (FetchURL w true url r σ0).2.2.trace
                    = Event.get accessKey (.ok t)
                      :: Event.send (Request.mk "GET" url
                          [userAgent, ("Authorization", "Bearer " ++ t)] none) (.ok resp)
                      :: Event.refreshEnter :: (dr ++ Event.refreshExit none :: d2)
                  ∧ sentGets dr = []
                  ∧ sentGets d2
                      = [Request.mk "GET" url
                          [userAgent, ("Authorization", "Bearer " ++ t2)] none]) := by
  refine ⟨?_, ?_⟩
  · obtain ⟨d, ht, hc⟩ := fetchLoop_refresh_count w url 2 r ⟨σ0, []⟩
    have hT : (FetchURL w true url r σ0).2.2.trace = d := by
      simpa [FetchURL] using ht
    rw [hT]
    exact hc
  intro σ1 σ2 t resp hq h1 h2 hs
  have ha := attempt_bearer w url r σ0 σ1 t hq h1
  obtain ⟨dr, res, σ3, he, hr⟩ := refreshAuth_run w
    ⟨σ2, [Event.get accessKey (.ok t),
      Event.send (getRequest url [("Authorization", "Bearer " ++ t)]) (.ok resp)]⟩
  obtain ⟨f1, f2, f3, f4, f5, f6, f7⟩ := refreshRun_facts hr
  have hb : attempt w true url r ⟨σ0, []⟩
      = match refreshAuth w ⟨σ2, [Event.get accessKey (.ok t),
            Event.send (getRequest url [("Authorization", "Bearer " ++ t)]) (.ok resp)]⟩ with
        | (some err, s2) => .ret (some err) r s2
        | (none, s2) => .next r s2 := by
    have h2b : w.send (getRequest url [("Authorization", "Bearer " ++ t)]) σ1
        = (.ok resp, σ2) := h2
    rw [ha]
    simp [respond, clientDo, h2b, hs]
  have he2 : refreshAuth w ⟨σ2, [Event.get accessKey (.ok t),
        Event.send (Request.mk "GET" url
          [userAgent, ("Authorization", "Bearer " ++ t)] none) (.ok resp)]⟩
      = (res, ⟨σ3, Event.get accessKey (.ok t)
          :: Event.send (Request.mk "GET" url
              [userAgent, ("Authorization", "Bearer " ++ t)] none) (.ok resp)
          :: Event.refreshEnter :: (dr ++ [Event.refreshExit res])⟩) := by
    simpa [getRequest] using he
  cases res with
  | some e =>
    have hF : FetchURL w true url r σ0 = (some e, r,
        ⟨σ3, Event.get accessKey (.ok t)
          :: Event.send (Request.mk "GET" url
              [userAgent, ("Authorization", "Bearer " ++ t)] none) (.ok resp)
          :: Event.refreshEnter :: (dr ++ [Event.refreshExit (some e)])⟩) := by
      simp [FetchURL, fetchLoop, hb, he2, getRequest]
    rw [hF]
    refine ⟨⟨_, rfl⟩, ?_, ?_⟩
    · intro e2 s3 h3
      rw [he2] at h3
      have h4 : e = e2 := by
        have := congrArg Prod.fst h3
        simpa using this
      subst h4
      simp [refreshCalls, refreshCalls_append, f3, sentGets, sentGets_append, f1]
    · intro s3 t2 σ4 h3
      rw [he2] at h3
      have := congrArg Prod.fst h3
      simp at this
  | none =>
    have hF : FetchURL w true url r σ0 = fetchLoop w true url 1 r
        ⟨σ3, Event.get accessKey (.ok t)
          :: Event.send (Request.mk "GET" url
              [userAgent, ("Authorization", "Bearer " ++ t)] none) (.ok resp)
          :: Event.refreshEnter :: (dr ++ [Event.refreshExit none])⟩ := by
      simp [FetchURL, fetchLoop, hb, he2, getRequest]
    refine ⟨?_, ?_, ?_⟩
    · obtain ⟨d2, ht2, _⟩ := fetchLoop_one w true url r
        ⟨σ3, Event.get accessKey (.ok t)
          :: Event.send (Request.mk "GET" url
              [userAgent, ("Authorization", "Bearer " ++ t)] none) (.ok resp)
          :: Event.refreshEnter :: (dr ++ [Event.refreshExit none])⟩
      rw [hF, ht2]
      exact ⟨_, rfl⟩
    · intro e2 s3 h3
      rw [he2] at h3
      have := congrArg Prod.fst h3
      simp at this
    · intro s3 t2 σ4 h3 h4
      rw [he2] at h3
      have hs3 : s3 = ⟨σ3, Event.get accessKey (.ok t)
          :: Event.send (Request.mk "GET" url
              [userAgent, ("Authorization", "Bearer " ++ t)] none) (.ok resp)
          :: Event.refreshEnter :: (dr ++ [Event.refreshExit none])⟩ := by
        have := congrArg Prod.snd h3
        simpa using this.symm
      subst hs3
      have ha2 := attempt_bearer_at w url r _ σ4 t2 hq h4
      obtain ⟨d, hd, hg⟩ := respond_sends_once w true
        (getRequest url [("Authorization", "Bearer " ++ t2)]) r
        ⟨σ4, (Event.get accessKey (.ok t)
          :: Event.send (Request.mk "GET" url
              [userAgent, ("Authorization", "Bearer " ++ t)] none) (.ok resp)
          :: Event.refreshEnter :: (dr ++ [Event.refreshExit none]))
          ++ [Event.get accessKey (.ok t2)]⟩ rfl
      have hT : (FetchURL w true url r σ0).2.2.trace
          = Event.get accessKey (.ok t)
            :: Event.send (Request.mk "GET" url
                [userAgent, ("Authorization", "Bearer " ++ t)] none) (.ok resp)
            :: Event.refreshEnter
            :: (dr ++ Event.refreshExit none :: (Event.get accessKey (.ok t2) :: d)) := by
        rw [hF, fetchLoop_one_trace, ha2, hd]
        simp
      have hg2 : sentGets (Event.get accessKey (.ok t2) :: d)
          = [Request.mk "GET" url [userAgent, ("Authorization", "Bearer " ++ t2)] none] := by
        simpa [sentGets, getRequest] using hg
      refine ⟨?_, dr, _, hT, f1, hg2⟩
      rw [hT]
      have hsplit : ∀ x y : List Event, sentGets (Event.get accessKey (.ok t)
            :: Event.send (Request.mk "GET" url
                [userAgent, ("Authorization", "Bearer " ++ t)] none) (.ok resp)
            :: Event.refreshEnter :: (x ++ Event.refreshExit none :: y))
          = Request.mk "GET" url [userAgent, ("Authorization", "Bearer " ++ t)] none
            :: (sentGets x ++ sentGets y) := by
        intro x y
        simp [sentGets, sentGets_append]
      rw [hsplit, f1, hg2]
      rfl

/-- C5 (as amended) at a concrete input: the stored token `"T"` is answered
403, the refresh succeeds and stores `"A"`, and the GET is sent once more with
`"A"`. -/
theorem FetchURL_forbidden_witness :
    sentGets (FetchURL sampleWorld true "u" ""
        ⟨warmStore, [reply 403 "403 Forbidden" "", reply 200 "200 OK" "expires_in:600",
          reply 200 "200 OK" "body"]⟩).2.2.trace
      = [Request.mk "GET" "u" [userAgent, ("Authorization", "Bearer " ++ "T")] none,
          Request.mk "GET" "u" [userAgent, ("Authorization", "Bearer " ++ "A")] none] :=
  (((FetchURL_forbidden sampleWorld "u" ""
      ⟨warmStore, [reply 403 "403 Forbidden" "", reply 200 "200 OK" "expires_in:600",
        reply 200 "200 OK" "body"]⟩).2
      ⟨warmStore, [reply 403 "403 Forbidden" "", reply 200 "200 OK" "expires_in:600",
        reply 200 "200 OK" "body"]⟩
      ⟨warmStore, [reply 200 "200 OK" "expires_in:600", reply 200 "200 OK" "body"]⟩
      "T" ⟨403, "403 Forbidden", ""⟩ rfl rfl rfl rfl).2.2
    (refreshAuth sampleWorld
      ⟨⟨warmStore, [reply 200 "200 OK" "expires_in:600", reply 200 "200 OK" "body"]⟩,
        [Event.get accessKey (.ok "T"),
          Event.send (Request.mk "GET" "u"
            [userAgent, ("Authorization", "Bearer " ++ "T")] none)
            (.ok ⟨403, "403 Forbidden", ""⟩)]⟩).2
    "A"
    (refreshAuth sampleWorld
      ⟨⟨warmStore, [reply 200 "200 OK" "expires_in:600", reply 200 "200 OK" "body"]⟩,
        [Event.get accessKey (.ok "T"),
          Event.send (Request.mk "GET" "u"
            [userAgent, ("Authorization", "Bearer " ++ "T")] none)
            (.ok ⟨403, "403 Forbidden", ""⟩)]⟩).2.world
    (Prod.ext (by decide) rfl) rfl).1

/-! ## Concrete runs that contradict claims as stated -/

/-- C3 as stated fails: the store holds the readable access token `"T"`, the
first GET is answered 403, the refresh succeeds, and a second GET is sent,
carrying the new token `"A"`. -/
theorem FetchURL_bearer_two_gets :
    warmStore accessKey = some ⟨"T", none⟩
      ∧ sentGets (FetchURL sampleWorld true "u" ""
          ⟨warmStore, [reply 403 "403 Forbidden" "", reply 200 "200 OK" "expires_in:600",
            reply 200 "200 OK" "body"]⟩).2.2.trace
        = [Request.mk "GET" "u" [userAgent, ("Authorization", "Bearer T")] none,
            Request.mk "GET" "u" [userAgent, ("Authorization", "Bearer A")] none] := by
  decide

/-- C5 as stated fails: with needauth=true the resource endpoint answers 403
to both GET requests, and `refreshAuth` is invoked twice, not once.  It fails
in two more runs: the endpoint answers 403 and the refresh is rejected, so
the GET is not sent again; and the first token read fails, the refresh
succeeds, the GET is answered 403 and the second refresh is rejected, so
there are two `refreshAuth` attempts and a single GET. -/
theorem FetchURL_forbidden_twice :
    (getStatuses (FetchURL sampleWorld true "u" ""
        ⟨warmStore, [reply 403 "403 Forbidden" "", reply 200 "200 OK" "expires_in:600",
          reply 403 "403 Forbidden" "", reply 200 "200 OK" "expires_in:600"]⟩).2.2.trace
      = [403, 403]
      ∧ refreshCalls (FetchURL sampleWorld true "u" ""
        ⟨warmStore, [reply 403 "403 Forbidden" "", reply 200 "200 OK" "expires_in:600",
          reply 403 "403 Forbidden" "", reply 200 "200 OK" "expires_in:600"]⟩).2.2.trace
      = 2)
      ∧ (getStatuses (FetchURL sampleWorld true "u" ""
          ⟨warmStore, [reply 403 "403 Forbidden" "", reply 400 "400 Bad Request" ""]⟩).2.2.trace
        = [403]
        ∧ refreshCalls (FetchURL sampleWorld true "u" ""
          ⟨warmStore, [reply 403 "403 Forbidden" "", reply 400 "400 Bad Request" ""]⟩).2.2.trace
        = 1
        ∧ (sentGets (FetchURL sampleWorld true "u" ""
          ⟨warmStore, [reply 403 "403 Forbidden" "",
            reply 400 "400 Bad Request" ""]⟩).2.2.trace).length
        = 1)
      ∧ (getStatuses (FetchURL sampleWorld true "u" ""
          ⟨coldStore, [reply 200 "200 OK" "expires_in:600", reply 403 "403 Forbidden" "",
            reply 400 "400 Bad Request" ""]⟩).2.2.trace
        = [403]
        ∧ refreshCalls (FetchURL sampleWorld true "u" ""
          ⟨coldStore, [reply 200 "200 OK" "expires_in:600", reply 403 "403 Forbidden" "",
            reply 400 "400 Bad Request" ""]⟩).2.2.trace
        = 2
        ∧ (sentGets (FetchURL sampleWorld true "u" ""
          ⟨coldStore, [reply 200 "200 OK" "expires_in:600", reply 403 "403 Forbidden" "",
            reply 400 "400 Bad Request" ""]⟩).2.2.trace).length
        = 1) := by
  decide

/-- C9 as stated fails: the read of the access token fails (the key is
missing), the refresh succeeds, the retried request is answered 200, and
`FetchURL` returns nil although a store operation failed. -/
theorem FetchURL_swallows_token_miss :
    failures (FetchURL sampleWorld true "u" ""
        ⟨coldStore, [reply 200 "200 OK" "expires_in:600", reply 200 "200 OK" "body"]⟩).2.2.trace
      = [Event.get accessKey (.error "redis: nil")]
      ∧ (FetchURL sampleWorld true "u" ""
        ⟨coldStore, [reply 200 "200 OK" "expires_in:600", reply 200 "200 OK" "body"]⟩).1
      = none := by
  decide

/-! ## Claims about `refreshAuth` -/

/-- A positive lifetime of at most `maxSeconds` seconds is converted to nanoseconds exactly. -/
theorem secondsDuration_exact (n : Int) (hn : 0 < n) (hb : n ≤ maxSeconds) :
    secondsDuration n = n * timeSecond := by
  unfold secondsDuration wrapInt64 timeSecond
  unfold maxSeconds at hb
  omega

/-- Within the range of `time.Duration` the refresh stores what the token
endpoint reports: for a 200 response whose body decodes to access_token `A`,
refresh_token `B` and an expires_in `n` with `0 < n ≤ 9223372036`, if both
store writes succeed then `refreshAuth` returns nil and has written key
evepraisal_access = `A` with a TTL of exactly `n` seconds and key
evepraisal_refresh = `B` with no TTL, and nothing else. -/
theorem refreshAuth_stores_tokens {σ δ : Type} (w : World σ δ) (σ0 σ1 σ2 σ3 σ4 σ5 : σ)
    (rt auth A tt B : String) (n : Int) (resp : Response)
    (hq : w.newRequest "POST" tokenURL = none)
    (h1 : w.get refreshKey σ0 = (.ok rt, σ1))
    (h2 : w.get apiauthKey σ1 = (.ok auth, σ2))
    (h3 : w.send (refreshRequest rt auth) σ2 = (.ok resp, σ3))
    (hs : resp.StatusCode = 200)
    (hd : w.decodeToken resp.Body = .ok ⟨A, tt, n, B⟩)
    (hn : 0 < n) (hb : n ≤ maxSeconds)
    (h4 : w.set accessKey A (secondsDuration n) σ3 = (none, σ4))
    (h5 : w.set refreshKey B 0 σ4 = (none, σ5)) :
    (refreshAuth w ⟨σ0, []⟩).1 = none
      ∧ mutations (refreshAuth w ⟨σ0, []⟩).2.trace
          = [.set accessKey A (n * timeSecond), .set refreshKey B 0]
      ∧ ∀ st : Store,
          replay (refreshAuth w ⟨σ0, []⟩).2.trace st accessKey = some ⟨A, some (n * timeSecond)⟩
            ∧ replay (refreshAuth w ⟨σ0, []⟩).2.trace st refreshKey = some ⟨B, none⟩
            ∧ replay (refreshAuth w ⟨σ0, []⟩).2.trace st apiauthKey = st apiauthKey
            ∧ ∀ k, k ≠ accessKey → k ≠ refreshKey →
                replay (refreshAuth w ⟨σ0, []⟩).2.trace st k = st k := by
  have hdur := secondsDuration_exact n hn hb
  have hpos : 0 < n * timeSecond := by
    unfold timeSecond
    omega
  have hF : refreshAuth w ⟨σ0, []⟩ = (none, ⟨σ5,
      [Event.refreshEnter, .get refreshKey (.ok rt), .get apiauthKey (.ok auth),
        .send (refreshRequest rt auth) (.ok resp), .decode none,
        .set accessKey A (n * timeSecond) none, .set refreshKey B 0 none,
        .refreshExit none]⟩) := by
    rw [hdur] at h4
    simp [refreshAuth, refreshAuthBody, getRefreshToken, APIAuth, redisGet, clientDo, redisSet,
      Run.log, h1, hq, h2, h3, hs, hd, hdur, h4, h5]
  rw [hF]
  refine ⟨rfl, by simp [mutations], fun st => ⟨?_, ?_, ?_, ?_⟩⟩
  · simp [replay, applyEvent, Store.put, accessKey, refreshKey, hpos]
  · simp [replay, applyEvent, Store.put, accessKey, refreshKey]
  · simp [replay, applyEvent, Store.put, accessKey, refreshKey, apiauthKey]
  · intro k hk1 hk2
    simp [replay, applyEvent, Store.put, hk1, hk2]

/-- A 200 response reporting a lifetime of 600 seconds is stored with that lifetime. -/
theorem refreshAuth_stores_tokens_witness :
    replay (refreshAuth sampleWorld
        ⟨⟨coldStore, [reply 200 "200 OK" "expires_in:600"]⟩, []⟩).2.trace coldStore accessKey
      = some ⟨"A", some (600 * timeSecond)⟩ :=
  ((refreshAuth_stores_tokens sampleWorld
      ⟨coldStore, [reply 200 "200 OK" "expires_in:600"]⟩
      ⟨coldStore, [reply 200 "200 OK" "expires_in:600"]⟩
      ⟨coldStore, [reply 200 "200 OK" "expires_in:600"]⟩
      ⟨coldStore, []⟩
      ⟨coldStore.put accessKey "A" (secondsDuration 600), []⟩
      ⟨(coldStore.put accessKey "A" (secondsDuration 600)).put refreshKey "B" 0, []⟩
      "R" "K" "A" "Bearer" "B" 600 ⟨200, "200 OK", "expires_in:600"⟩
      rfl rfl rfl rfl rfl rfl (by decide) (by decide) rfl rfl).2.2 coldStore).1

/-- C6 fails on the code: when the token endpoint reports the positive lifetime
18446744074 seconds, the `int64` product with `time.Second` at http.go:144
wraps around and the access token is written with a lifetime of 290448384
nanoseconds instead of 18446744074 seconds; when it reports 9223372037
seconds the product wraps to a negative duration and the access token is
stored with no TTL at all.  In both runs `refreshAuth` returns nil. -/
theorem refreshAuth_lifetime_wraps :
    (refreshAuth sampleWorld
        ⟨⟨coldStore, [reply 200 "200 OK" "expires_in:18446744074"]⟩, []⟩).1 = none
      ∧ mutations (refreshAuth sampleWorld
          ⟨⟨coldStore, [reply 200 "200 OK" "expires_in:18446744074"]⟩, []⟩).2.trace
        = [.set accessKey "A" 290448384, .set refreshKey "B" 0]
      ∧ (refreshAuth sampleWorld
          ⟨⟨coldStore, [reply 200 "200 OK" "expires_in:18446744074"]⟩, []⟩).2.world.store
            accessKey
        = some ⟨"A", some 290448384⟩
      ∧ (290448384 : Int) ≠ 18446744074 * timeSecond
      ∧ (refreshAuth sampleWorld
          ⟨⟨coldStore, [reply 200 "200 OK" "expires_in:9223372037"]⟩, []⟩).1 = none
      ∧ mutations (refreshAuth sampleWorld
          ⟨⟨coldStore, [reply 200 "200 OK" "expires_in:9223372037"]⟩, []⟩).2.trace
        = [.set accessKey "A" (-9223372036709551616), .set refreshKey "B" 0]
      ∧ (refreshAuth sampleWorld
          ⟨⟨coldStore, [reply 200 "200 OK" "expires_in:9223372037"]⟩, []⟩).2.world.store
            accessKey
        = some ⟨"A", none⟩ := by
  decide

/-- C7 (as amended): for every token-endpoint response whose status is not
200, `refreshAuth` returns an error and leaves the evepraisal_access and
evepraisal_refresh entries unchanged; it issues a delete of
evepraisal_apiauth, and no other store mutation, if and only if the status is
401, and discards the result of that delete, so that on 401 the entry is
deleted when the store carries the delete out; every other status (400
included) causes no store mutation at all. -/
theorem refreshAuth_rejected {σ δ : Type} (w : World σ δ) (σ0 : σ) (req : Request)
    (resp : Response)
    (hm : Event.send req (.ok resp) ∈ (refreshAuth w ⟨σ0, []⟩).2.trace)
    (hs : resp.StatusCode ≠ 200) :
    (refreshAuth w ⟨σ0, []⟩).1 ≠ none
      ∧ mutations (refreshAuth w ⟨σ0, []⟩).2.trace
          = (if resp.StatusCode = 401 then [Mutation.del apiauthKey] else [])
      ∧ ∀ st : Store,
          replay (refreshAuth w ⟨σ0, []⟩).2.trace st accessKey = st accessKey
            ∧ replay (refreshAuth w ⟨σ0, []⟩).2.trace st refreshKey = st refreshKey
            ∧ (resp.StatusCode ≠ 401 → replay (refreshAuth w ⟨σ0, []⟩).2.trace st = st)
            ∧ (resp.StatusCode = 401 →
                Event.del apiauthKey none ∈ (refreshAuth w ⟨σ0, []⟩).2.trace →
                replay (refreshAuth w ⟨σ0, []⟩).2.trace st apiauthKey = none) := by
  obtain ⟨d, res, σ1, he, hr⟩ := refreshAuth_run w ⟨σ0, []⟩
  rw [he] at hm ⊢
  cases hr
  case status400 =>
    simp at hm
    obtain ⟨_, rfl⟩ := hm
    simp [mutations, replay, applyEvent, *]
  case status401 =>
    simp at hm
    obtain ⟨_, rfl⟩ := hm
    rename Option String => dr
    cases dr <;>
      simp [mutations, replay, applyEvent, Store.erase, accessKey, refreshKey, apiauthKey, *]
  case statusOther =>
    simp at hm
    obtain ⟨_, rfl⟩ := hm
    simp [mutations, replay, applyEvent, *]
  all_goals
    simp at hm
    try (obtain ⟨_, rfl⟩ := hm; contradiction)

/-- C7 (as amended) at a concrete input: the token endpoint answers 401. -/
theorem refreshAuth_rejected_witness :
    mutations (refreshAuth sampleWorld
        ⟨⟨coldStore, [reply 401 "401 Unauthorized" ""]⟩, []⟩).2.trace
      = [Mutation.del apiauthKey] :=
  (refreshAuth_rejected sampleWorld ⟨coldStore, [reply 401 "401 Unauthorized" ""]⟩
    (refreshRequest "R" "K") ⟨401, "401 Unauthorized", ""⟩ (by decide) (by decide)).2.1

/-- C7 as stated fails: the token endpoint answers 401 and the store refuses
the delete; `refreshAuth` discards that refusal (http.go:130) and returns the
"API auth rejected" error, while the evepraisal_apiauth entry is still there. -/
theorem refreshAuth_delete_refused :
    Event.send (refreshRequest "R" "K") (.ok ⟨401, "401 Unauthorized", ""⟩)
        ∈ (refreshAuth brokenDelWorld
            ⟨⟨coldStore, [reply 401 "401 Unauthorized" ""]⟩, []⟩).2.trace
      ∧ (refreshAuth brokenDelWorld
          ⟨⟨coldStore, [reply 401 "401 Unauthorized" ""]⟩, []⟩).1
        = some (.errorf "API auth rejected. Clearing local data")
      ∧ Event.del apiauthKey (some "i/o timeout")
        ∈ (refreshAuth brokenDelWorld
            ⟨⟨coldStore, [reply 401 "401 Unauthorized" ""]⟩, []⟩).2.trace
      ∧ (refreshAuth brokenDelWorld
          ⟨⟨coldStore, [reply 401 "401 Unauthorized" ""]⟩, []⟩).2.world.store apiauthKey
        = some ⟨"K", none⟩
      ∧ replay (refreshAuth brokenDelWorld
          ⟨⟨coldStore, [reply 401 "401 Unauthorized" ""]⟩, []⟩).2.trace coldStore apiauthKey
        = some ⟨"K", none⟩ := by
  decide

/-- C8 fails on the code: the token endpoint answers 200 with expires_in 0
(the value an absent field decodes to); `refreshAuth` returns nil and writes
the access token with expiration 0, the argument it also uses to store the
refresh token without TTL, so the access token is stored without an expiry. -/
theorem refreshAuth_zero_lifetime_never_expires :
    (refreshAuth sampleWorld
        ⟨⟨coldStore, [reply 200 "200 OK" "expires_in:0"]⟩, []⟩).1 = none
      ∧ mutations (refreshAuth sampleWorld
          ⟨⟨coldStore, [reply 200 "200 OK" "expires_in:0"]⟩, []⟩).2.trace
        = [.set accessKey "A" 0, .set refreshKey "B" 0]
      ∧ (refreshAuth sampleWorld
          ⟨⟨coldStore, [reply 200 "200 OK" "expires_in:0"]⟩, []⟩).2.world.store accessKey
        = some ⟨"A", none⟩ := by
  decide

end Esi
